import Mathlib

/-!
# Verification of the GST reconciliation / graph projection engine

This file embeds the core of the `GST-Reconciliation2` backend in Lean 4 and
proves (or refutes) the frozen claims about it.

* `graph_sync.py` — the MongoDB → Neo4j projection (`sync_graph` and its
  per-collection steps).  Cypher `MERGE`/`SET` upserts are embedded as
  in-place updates on association lists (`upsert`), batched writes as
  `batchWrite`, and the whole projection as `syncGraph` on a `GState`.
* `routes/ca_dashboard.py` — buyer-side reconciliation (`ca_overview`) and the
  single-invoice detail endpoint (`ca_invoice_detail`).
* `routes/graph.py` — the neighbourhood risk score (`risk_score`).
* `routes/inspector_dashboard.py` — the e-way-bill fraud list
  (`ewaybill_fraud`).
* `routes/dashboard.py` — the buyer-scoped vendor risk list
  (`dashboard_overview`).

Monetary values are embedded as `ℚ` (the Python code treats them as decimal
floats; every comparison the claims mention is about exact decimal values).
A missing or unparseable monetary field is `none`, matching the
`_safe_float`/`_to_float` helpers that default such values to `0.0`.
Record fields are `Option`-valued: `none` models a missing key.
-/

namespace GSTV

/-! ## A. Association-list upsert machinery

Cypher `MERGE (n {key: k}) SET n.f = ...` either updates the matched node in
place or creates it.  We model every node collection as an association list
`List (K × V)`: `upsert` updates in place when the key is present (keeping the
node's position) and appends a fresh entry otherwise — exactly the observable
behaviour of `MERGE` under a uniqueness constraint on the key. -/

variable {K : Type} {V : Type} [DecidableEq K]

/-- One `MERGE ... SET ...` clause: `set` receives the current value of the
matched node (`none` if the node is being created) and returns its new value.
`grp` tags which property group the clause writes (clauses of one projection
step all write the same group). -/
structure Op (K V : Type) where
  key : K
  grp : Nat
  set : Option V → V

/-- In-place-or-append upsert on an association list. -/
def upsert (k : K) (f : Option V → V) : List (K × V) → List (K × V)
  | [] => [(k, f none)]
  | (k', v) :: t => if k = k' then (k', f (some v)) :: t else (k', v) :: upsert k f t

def applyOp (o : Op K V) (m : List (K × V)) : List (K × V) := upsert o.key o.set m

def applyOps (ops : List (Op K V)) (m : List (K × V)) : List (K × V) :=
  ops.foldl (fun m o => applyOp o m) m

def keysOf (m : List (K × V)) : List K := m.map Prod.fst

theorem applyOps_append (a b : List (Op K V)) (m : List (K × V)) :
    applyOps (a ++ b) m = applyOps b (applyOps a m) := by
  simp [applyOps, List.foldl_append]

theorem mem_keys_upsert {k' : K} (k : K) (f : Option V → V) (m : List (K × V)) :
    k' ∈ keysOf (upsert k f m) ↔ k' = k ∨ k' ∈ keysOf m := by
  induction m with
  | nil => simp [upsert, keysOf]
  | cons p t ih =>
    obtain ⟨k₀, v₀⟩ := p
    by_cases h : k = k₀
    · subst h; simp [upsert, keysOf]
    · simp only [upsert, if_neg h, keysOf, List.map_cons, List.mem_cons]
      rw [keysOf] at ih
      rw [ih]
      tauto

theorem mem_keys_applyOp_of {k : K} (o : Op K V) {m : List (K × V)}
    (h : k ∈ keysOf m) : k ∈ keysOf (applyOp o m) := by
  rw [applyOp, mem_keys_upsert]; exact Or.inr h

theorem key_mem_keys_applyOp (o : Op K V) (m : List (K × V)) :
    o.key ∈ keysOf (applyOp o m) := by
  rw [applyOp, mem_keys_upsert]; exact Or.inl rfl

theorem mem_keys_applyOps_of {k : K} (ops : List (Op K V)) {m : List (K × V)}
    (h : k ∈ keysOf m) : k ∈ keysOf (applyOps ops m) := by
  induction ops generalizing m with
  | nil => exact h
  | cons o t ih => exact ih (mem_keys_applyOp_of o h)

/-- Re-upserting the same key absorbs the earlier write when the two `set`
functions satisfy the overwrite law. -/
theorem upsert_absorb {k : K} {f₁ f₂ : Option V → V}
    (h : ∀ ov, f₁ (some (f₂ ov)) = f₁ ov) (m : List (K × V)) :
    upsert k f₁ (upsert k f₂ m) = upsert k f₁ m := by
  induction m with
  | nil => simp [upsert, h none]
  | cons p t ih =>
    obtain ⟨k₀, v₀⟩ := p
    by_cases hk : k = k₀
    · subst hk; simp [upsert, h (some v₀)]
    · simp [upsert, if_neg hk, ih]

/-- Upserts at the same key commute when their `set` functions commute. -/
theorem upsert_comm_same_key {k : K} {f₁ f₂ : Option V → V}
    (h : ∀ ov, f₁ (some (f₂ ov)) = f₂ (some (f₁ ov))) (m : List (K × V)) :
    upsert k f₁ (upsert k f₂ m) = upsert k f₂ (upsert k f₁ m) := by
  induction m with
  | nil => simp [upsert, h none]
  | cons p t ih =>
    obtain ⟨k₀, v₀⟩ := p
    by_cases hk : k = k₀
    · subst hk; simp [upsert, h (some v₀)]
    · simp [upsert, if_neg hk, ih]

/-- Upserts at distinct keys commute provided the first key is already
present (a fresh append on both sides could otherwise change the order of the
two new entries). -/
theorem upsert_comm_ne {k₁ k₂ : K} {f₁ f₂ : Option V → V}
    (hk : k₁ ≠ k₂) {m : List (K × V)} (hm : k₁ ∈ keysOf m) :
    upsert k₁ f₁ (upsert k₂ f₂ m) = upsert k₂ f₂ (upsert k₁ f₁ m) := by
  induction m with
  | nil => simp [keysOf] at hm
  | cons p t ih =>
    obtain ⟨k₀, v₀⟩ := p
    by_cases h1 : k₁ = k₀
    · subst h1
      simp [upsert, Ne.symm hk]
    · by_cases h2 : k₂ = k₀
      · subst h2
        simp [upsert, hk, h1]
      · have hm' : k₁ ∈ keysOf t := by
          simp [keysOf] at hm
          rcases hm with h | h
          · exact absurd h h1
          · simpa [keysOf] using h
        simp [upsert, h1, h2, ih hm']

/-- The overwrite law: two clauses of the same step (same property group) at
the same key — the later write wins and absorbs the earlier one. -/
def OpsAbsorb (ops : List (Op K V)) : Prop :=
  ∀ o₁ ∈ ops, ∀ o₂ ∈ ops, o₁.key = o₂.key → o₁.grp = o₂.grp →
    ∀ ov, o₁.set (some (o₂.set ov)) = o₁.set ov

/-- The commutation law: clauses of different steps (different property
groups) writing the same key touch disjoint properties and commute. -/
def OpsComm (ops : List (Op K V)) : Prop :=
  ∀ o₁ ∈ ops, ∀ o₂ ∈ ops, o₁.key = o₂.key → o₁.grp ≠ o₂.grp →
    ∀ ov, o₁.set (some (o₂.set ov)) = o₂.set (some (o₁.set ov))

theorem applyOps_absorb_extra {ops OPS : List (Op K V)} {o : Op K V}
    (habs : OpsAbsorb OPS) (hcom : OpsComm OPS)
    (hsub : ∀ x ∈ ops, x ∈ OPS) (ho : o ∈ OPS)
    (hmatch : ∃ o' ∈ ops, o'.key = o.key ∧ o'.grp = o.grp)
    {m : List (K × V)} (hk : o.key ∈ keysOf m) :
    applyOps ops (applyOp o m) = applyOps ops m := by
  induction ops generalizing m with
  | nil => obtain ⟨o', h, -⟩ := hmatch; simp at h
  | cons o' rest ih =>
    have ho' : o' ∈ OPS := hsub o' (by simp)
    have hsub' : ∀ x ∈ rest, x ∈ OPS := fun x hx => hsub x (by simp [hx])
    by_cases hkey : o'.key = o.key
    · by_cases hgrp : o'.grp = o.grp
      · have : applyOp o' (applyOp o m) = applyOp o' m := by
          rw [applyOp, applyOp, applyOp, ← hkey]
          exact upsert_absorb (habs o' ho' o ho hkey hgrp) m
        simp only [applyOps, List.foldl_cons]
        rw [this]
      · have hswap : applyOp o' (applyOp o m) = applyOp o (applyOp o' m) := by
          rw [applyOp, applyOp, applyOp, applyOp, ← hkey]
          exact upsert_comm_same_key (hcom o' ho' o ho hkey hgrp) m
        have hmatch' : ∃ om ∈ rest, om.key = o.key ∧ om.grp = o.grp := by
          obtain ⟨om, hom, h1, h2⟩ := hmatch
          rcases List.mem_cons.mp hom with h | h
          · subst h; exact absurd h2 hgrp
          · exact ⟨om, h, h1, h2⟩
        simp only [applyOps, List.foldl_cons]
        rw [hswap]
        exact ih hsub' hmatch' (mem_keys_applyOp_of o' hk)
    · have hswap : applyOp o' (applyOp o m) = applyOp o (applyOp o' m) := by
        rw [applyOp, applyOp, applyOp, applyOp]
        exact (upsert_comm_ne (fun h => hkey h.symm) hk).symm
      have hmatch' : ∃ om ∈ rest, om.key = o.key ∧ om.grp = o.grp := by
        obtain ⟨om, hom, h1, h2⟩ := hmatch
        rcases List.mem_cons.mp hom with h | h
        · subst h; exact absurd h1 hkey
        · exact ⟨om, h, h1, h2⟩
      simp only [applyOps, List.foldl_cons]
      rw [hswap]
      exact ih hsub' hmatch' (mem_keys_applyOp_of o' hk)

theorem applyOps_comm_extra {ops OPS : List (Op K V)} {o : Op K V}
    (hcom : OpsComm OPS)
    (hsub : ∀ x ∈ ops, x ∈ OPS) (ho : o ∈ OPS)
    (hnomatch : ∀ o' ∈ ops, ¬(o'.key = o.key ∧ o'.grp = o.grp))
    {m : List (K × V)} (hk : o.key ∈ keysOf m) :
    applyOps ops (applyOp o m) = applyOp o (applyOps ops m) := by
  induction ops generalizing m with
  | nil => rfl
  | cons o' rest ih =>
    have ho' : o' ∈ OPS := hsub o' (by simp)
    have hsub' : ∀ x ∈ rest, x ∈ OPS := fun x hx => hsub x (by simp [hx])
    have hnomatch' : ∀ x ∈ rest, ¬(x.key = o.key ∧ x.grp = o.grp) :=
      fun x hx => hnomatch x (by simp [hx])
    have hswap : applyOp o' (applyOp o m) = applyOp o (applyOp o' m) := by
      by_cases hkey : o'.key = o.key
      · have hgrp : o'.grp ≠ o.grp := fun h => hnomatch o' (by simp) ⟨hkey, h⟩
        rw [applyOp, applyOp, applyOp, applyOp, ← hkey]
        exact upsert_comm_same_key (hcom o' ho' o ho hkey hgrp) m
      · rw [applyOp, applyOp, applyOp, applyOp]
        exact (upsert_comm_ne (fun h => hkey h.symm) hk).symm
    simp only [applyOps, List.foldl_cons]
    rw [hswap]
    exact ih hsub' hnomatch' (mem_keys_applyOp_of o' hk)

/-- Core idempotency of a batch of `MERGE`/`SET` upserts: applying the same
operation sequence a second time leaves the association list unchanged
(same entries, same order, same values). -/
theorem applyOps_idem {ops : List (Op K V)}
    (habs : OpsAbsorb ops) (hcom : OpsComm ops) (m : List (K × V)) :
    applyOps ops (applyOps ops m) = applyOps ops m := by
  suffices h : ∀ sub : List (Op K V), (∀ x ∈ sub, x ∈ ops) →
      ∀ m, applyOps sub (applyOps sub m) = applyOps sub m by
    exact h ops (fun x hx => hx) m
  intro sub hsub
  induction sub with
  | nil => intro m; rfl
  | cons o rest ih =>
    intro m
    have ho : o ∈ ops := hsub o (by simp)
    have hsub' : ∀ x ∈ rest, x ∈ ops := fun x hx => hsub x (by simp [hx])
    have ih' := ih hsub'
    simp only [applyOps, List.foldl_cons]
    show applyOps rest (applyOp o (applyOps rest (applyOp o m)))
      = applyOps rest (applyOp o m)
    have hk : o.key ∈ keysOf (applyOps rest (applyOp o m)) :=
      mem_keys_applyOps_of rest (key_mem_keys_applyOp o m)
    by_cases hmatch : ∃ o' ∈ rest, o'.key = o.key ∧ o'.grp = o.grp
    · rw [applyOps_absorb_extra habs hcom hsub' ho hmatch hk]
      exact ih' (applyOp o m)
    · push_neg at hmatch
      have hnomatch : ∀ o' ∈ rest, ¬(o'.key = o.key ∧ o'.grp = o.grp) := by
        intro o' h hcontr; exact hmatch o' h hcontr.1 hcontr.2
      rw [applyOps_comm_extra hcom hsub' ho hnomatch hk, ih' (applyOp o m)]
      have habs_oo : applyOp o (applyOp o m) = applyOp o m :=
        upsert_absorb (habs o ho o ho rfl rfl) m
      have e := applyOps_comm_extra hcom hsub' ho hnomatch
        (key_mem_keys_applyOp o m)
      calc applyOp o (applyOps rest (applyOp o m))
          = applyOps rest (applyOp o (applyOp o m)) := e.symm
        _ = applyOps rest (applyOp o m) := by rw [habs_oo]

/-- Adding edges one-by-one, skipping those already present: the effect of
`MERGE` on a relationship with no `SET` clause. -/
def addAll [DecidableEq α] (es : List α) (l : List α) : List α :=
  es.foldl (fun l e => if e ∈ l then l else l ++ [e]) l

theorem addAll_append [DecidableEq α] (a b l : List α) :
    addAll (a ++ b) l = addAll b (addAll a l) := by
  simp [addAll, List.foldl_append]

theorem mem_addAll_of_mem [DecidableEq α] {x : α} (es : List α) {l : List α}
    (h : x ∈ l) : x ∈ addAll es l := by
  induction es generalizing l with
  | nil => exact h
  | cons e t ih =>
    simp only [addAll, List.foldl_cons]
    by_cases he : e ∈ l
    · rw [if_pos he]; exact ih h
    · rw [if_neg he]; exact ih (by simp [h])

theorem mem_addAll_self [DecidableEq α] {x : α} {es : List α} (l : List α)
    (h : x ∈ es) : x ∈ addAll es l := by
  induction es generalizing l with
  | nil => simp at h
  | cons e t ih =>
    simp only [addAll, List.foldl_cons]
    rcases List.mem_cons.mp h with h | h
    · subst h
      have hx : x ∈ (if x ∈ l then l else l ++ [x]) := by
        by_cases he : x ∈ l <;> simp [he]
      exact mem_addAll_of_mem t hx
    · exact ih _ h

theorem addAll_eq_self [DecidableEq α] {es l : List α}
    (h : ∀ e ∈ es, e ∈ l) : addAll es l = l := by
  induction es with
  | nil => rfl
  | cons e t ih =>
    simp only [addAll, List.foldl_cons, if_pos (h e (by simp))]
    exact ih fun x hx => h x (by simp [hx])

theorem addAll_idem [DecidableEq α] (es l : List α) :
    addAll es (addAll es l) = addAll es l :=
  addAll_eq_self fun e he => mem_addAll_self l he

/-! ## B. `graph_sync.py` — the MongoDB → Neo4j projection

Source documents.  A MongoDB document is a loose key/value map; we embed each
collection's documents as a structure of `Option`-valued fields (`none` =
key absent).  Monetary fields are `Option ℚ`: `none` stands for a missing or
non-numeric value, which `_safe_float` maps to `0.0`. -/

/-- `_safe_float` / `_to_float`: missing or non-numeric monetary values
default to `0.0`. -/
def safeFloat (v : Option ℚ) : ℚ := v.getD 0

structure TaxpayerDoc where
  GSTIN : Option String := none
  Name : Option String := none
  Risk_Category : Option String := none
  IP_Address : Option String := none
  Phone : Option String := none
deriving DecidableEq

structure InvoiceDoc where
  Invoice_ID : Option String := none
  Value : Option ℚ := none
  Invoice_Date : Option String := none
  Seller_GSTIN : Option String := none
  Buyer_GSTIN : Option String := none
deriving DecidableEq

structure GSTR1Doc where
  Seller_GSTIN : Option String := none
  Buyer_GSTIN : Option String := none
  Invoice_ID : Option String := none
  Status : Option String := none
  Filing_Date : Option String := none
  Tax : Option ℚ := none
deriving DecidableEq

structure GSTR2BDoc where
  Buyer_GSTIN : Option String := none
  Seller_GSTIN : Option String := none
  Invoice_ID : Option String := none
  ITC_Eligible : Option String := none
  Tax : Option ℚ := none
  Value : Option ℚ := none
deriving DecidableEq

structure GSTR3BDoc where
  Seller_GSTIN : Option String := none
  Month : Option String := none
  Tax_Paid : Option ℚ := none
  Payment_Confirmed : Option String := none
deriving DecidableEq

structure EWayBillDoc where
  EWayBill_No : Option String := none
  Invoice_ID : Option String := none
  Seller_GSTIN : Option String := none
  Buyer_GSTIN : Option String := none
  Value : Option ℚ := none
  Distance : Option ℚ := none
  Date : Option String := none
deriving DecidableEq

structure PurchaseRegisterDoc where
  Buyer_GSTIN : Option String := none
  Invoice_ID : Option String := none
  Value_Claimed : Option ℚ := none
  Tax_Claimed : Option ℚ := none
  Claim_Date : Option String := none
deriving DecidableEq

/-! ### `_derive_month`

`datetime.strptime(date_str.strip(), "%Y-%m-%d").strftime("%b")`, returning
`"Unknown"` on bad input.  `strptime`'s `%Y` matches exactly four digits,
`%m` matches `1[0-2]|0[1-9]|[1-9]`, `%d` matches `3[01]|[12]\d|0[1-9]|[1-9]`,
the whole (stripped) string must be consumed, and the `datetime` constructor
additionally requires year ≥ 1 and a day valid for the month (with leap
years).  `strftime("%b")` renders the C-locale month abbreviation. -/

def digitVal (c : Char) : Option ℕ :=
  if c.isDigit then some (c.toNat - 48) else none

/-- `%Y`: exactly four digits. -/
def parseYear4 : List Char → Option (ℕ × List Char)
  | c1 :: c2 :: c3 :: c4 :: rest => do
    let a ← digitVal c1
    let b ← digitVal c2
    let c ← digitVal c3
    let d ← digitVal c4
    pure (a * 1000 + b * 100 + c * 10 + d, rest)
  | _ => none

/-- `%m`: the regex `1[0-2]|0[1-9]|[1-9]` (two digits preferred; a lone
`1`–`9` is accepted when no two-digit month fits). -/
def parseMonth2 : List Char → Option (ℕ × List Char)
  | [] => none
  | c1 :: rest =>
    match digitVal c1 with
    | none => none
    | some d1 =>
      if d1 = 0 then
        match rest with
        | c2 :: rest2 =>
          match digitVal c2 with
          | some d2 => if 1 ≤ d2 then some (d2, rest2) else none
          | none => none
        | [] => none
      else if d1 = 1 then
        match rest with
        | c2 :: rest2 =>
          match digitVal c2 with
          | some d2 => if d2 ≤ 2 then some (10 + d2, rest2) else some (1, c2 :: rest2)
          | none => some (1, c2 :: rest2)
        | [] => some (1, [])
      else some (d1, rest)

/-- `%d`: the regex `3[01]|[12]\d|0[1-9]|[1-9]`. -/
def parseDay2 : List Char → Option (ℕ × List Char)
  | [] => none
  | c1 :: rest =>
    match digitVal c1 with
    | none => none
    | some d1 =>
      if d1 = 0 then
        match rest with
        | c2 :: rest2 =>
          match digitVal c2 with
          | some d2 => if 1 ≤ d2 then some (d2, rest2) else none
          | none => none
        | [] => none
      else if d1 = 3 then
        match rest with
        | c2 :: rest2 =>
          match digitVal c2 with
          | some d2 => if d2 ≤ 1 then some (30 + d2, rest2) else some (3, c2 :: rest2)
          | none => some (3, c2 :: rest2)
        | [] => some (3, [])
      else if d1 ≤ 2 then
        match rest with
        | c2 :: rest2 =>
          match digitVal c2 with
          | some d2 => some (d1 * 10 + d2, rest2)
          | none => some (d1, c2 :: rest2)
        | [] => some (d1, [])
      else some (d1, rest)

def isLeapYear (y : ℕ) : Bool :=
  (y % 4 = 0 && y % 100 ≠ 0) || y % 400 = 0

def daysInMonth (y m : ℕ) : ℕ :=
  if m = 2 then (if isLeapYear y then 29 else 28)
  else if m = 4 ∨ m = 6 ∨ m = 9 ∨ m = 11 then 30
  else 31

/-- Python `str.strip()` whitespace (ASCII part). -/
def isPyWhitespace (c : Char) : Bool :=
  c = ' ' || c = '\t' || c = '\n' || c = '\r' || c = '\x0b' || c = '\x0c'

/-- `str.strip()`: drop leading and trailing whitespace. -/
def pyStrip (cs : List Char) : List Char :=
  ((cs.dropWhile isPyWhitespace).reverse.dropWhile isPyWhitespace).reverse

/-- `datetime.strptime(s.strip(), "%Y-%m-%d")`:
pattern match, full consumption, then `datetime(y, m, d)` validation. -/
def parseYMD (s : String) : Option (ℕ × ℕ × ℕ) := do
  let cs := pyStrip s.data
  let (y, cs) ← parseYear4 cs
  match cs with
  | '-' :: cs => do
    let (m, cs) ← parseMonth2 cs
    match cs with
    | '-' :: cs => do
      let (d, cs) ← parseDay2 cs
      if cs = [] ∧ 1 ≤ y ∧ 1 ≤ d ∧ d ≤ daysInMonth y m then pure (y, m, d)
      else none
    | _ => none
  | _ => none

/-- C-locale `strftime("%b")`. -/
def monthAbbrev : ℕ → String
  | 1 => "Jan" | 2 => "Feb" | 3 => "Mar" | 4 => "Apr"
  | 5 => "May" | 6 => "Jun" | 7 => "Jul" | 8 => "Aug"
  | 9 => "Sep" | 10 => "Oct" | 11 => "Nov" | 12 => "Dec"
  | _ => "Unknown"

/-- `_derive_month`: `'2026-01-19' → 'Jan'`, `'Unknown'` on bad input. -/
def deriveMonth (dateStr : String) : String :=
  match parseYMD dateStr with
  | some (_, m, _) => monthAbbrev m
  | none => "Unknown"

/-! ### Record extraction

Each `_sync_*` step walks its documents building a record list; a `KeyError`
on a required natural-key field skips the record (counted in `skipped`). -/

structure TaxRec where
  gstin : String
  name : String
  risk_category : String
  ip_address : String
  phone : String
deriving DecidableEq

/-- `_sync_taxpayers` record building: requires `GSTIN`. -/
def extractTaxpayer (d : TaxpayerDoc) : Option TaxRec := do
  let g ← d.GSTIN
  pure { gstin := g, name := d.Name.getD "", risk_category := d.Risk_Category.getD "UNKNOWN",
         ip_address := d.IP_Address.getD "", phone := d.Phone.getD "" }

structure InvRec where
  invoice_id : String
  value : ℚ
  invoice_date : String
  seller_gstin : String
  buyer_gstin : String
deriving DecidableEq

/-- `_sync_invoices` record building: requires `Invoice_ID`, `Seller_GSTIN`,
`Buyer_GSTIN`. -/
def extractInvoice (d : InvoiceDoc) : Option InvRec := do
  let i ← d.Invoice_ID
  let s ← d.Seller_GSTIN
  let b ← d.Buyer_GSTIN
  pure { invoice_id := i, value := safeFloat d.Value, invoice_date := d.Invoice_Date.getD "",
         seller_gstin := s, buyer_gstin := b }

structure GSTR1Rec where
  gstin : String
  invoice_id : String
  status : String
  filing_date : String
  period : String
  tax : ℚ
  return_id : String
deriving DecidableEq

/-- `_sync_gstr1` record building: requires `Seller_GSTIN` and `Invoice_ID`;
synthesizes `return_id = "GSTR1_{gstin}_{period}"` with
`period = _derive_month(filing_date)`. -/
def extractGSTR1 (d : GSTR1Doc) : Option GSTR1Rec := do
  let g ← d.Seller_GSTIN
  let i ← d.Invoice_ID
  let status := d.Status.getD "UNKNOWN"
  let fd := d.Filing_Date.getD ""
  let period := deriveMonth fd
  pure { gstin := g, invoice_id := i, status := status, filing_date := fd,
         period := period, tax := safeFloat d.Tax,
         return_id := "GSTR1_" ++ g ++ "_" ++ period }

structure GSTR2BRec where
  invoice_id : String
  buyer_gstin : String
  itc_eligible : String
  tax : ℚ
deriving DecidableEq

/-- `_sync_gstr2b` record building: requires `Invoice_ID` and `Buyer_GSTIN`. -/
def extractGSTR2B (d : GSTR2BDoc) : Option GSTR2BRec := do
  let i ← d.Invoice_ID
  let b ← d.Buyer_GSTIN
  pure { invoice_id := i, buyer_gstin := b, itc_eligible := d.ITC_Eligible.getD "NO",
         tax := safeFloat d.Tax }

structure GSTR3BRec where
  gstin : String
  month : String
  tax_paid : ℚ
  payment_confirmed : String
  return_id : String
deriving DecidableEq

/-- `_sync_gstr3b` record building: requires `Seller_GSTIN`; synthesizes
`return_id = "GSTR3B_{gstin}_{month}"` with the raw `Month` field
(default `"Unknown"`). -/
def extractGSTR3B (d : GSTR3BDoc) : Option GSTR3BRec := do
  let g ← d.Seller_GSTIN
  let month := d.Month.getD "Unknown"
  pure { gstin := g, month := month, tax_paid := safeFloat d.Tax_Paid,
         payment_confirmed := d.Payment_Confirmed.getD "N",
         return_id := "GSTR3B_" ++ g ++ "_" ++ month }

structure EWBRec where
  ewaybill_no : String
  invoice_id : String
  seller_gstin : String
  buyer_gstin : String
  value : ℚ
  distance : ℚ
  date : String
deriving DecidableEq

/-- `_sync_ewaybills` record building: requires `EWayBill_No`, `Invoice_ID`. -/
def extractEWayBill (d : EWayBillDoc) : Option EWBRec := do
  let e ← d.EWayBill_No
  let i ← d.Invoice_ID
  pure { ewaybill_no := e, invoice_id := i, seller_gstin := d.Seller_GSTIN.getD "",
         buyer_gstin := d.Buyer_GSTIN.getD "", value := safeFloat d.Value,
         distance := safeFloat d.Distance, date := d.Date.getD "" }

structure PRRec where
  buyer_gstin : String
  invoice_id : String
  value_claimed : ℚ
  tax_claimed : ℚ
  claim_date : String
deriving DecidableEq

/-- `_sync_purchase_register` record building: requires `Buyer_GSTIN`,
`Invoice_ID`. -/
def extractPR (d : PurchaseRegisterDoc) : Option PRRec := do
  let b ← d.Buyer_GSTIN
  let i ← d.Invoice_ID
  pure { buyer_gstin := b, invoice_id := i, value_claimed := safeFloat d.Value_Claimed,
         tax_claimed := safeFloat d.Tax_Claimed, claim_date := d.Claim_Date.getD "" }

/-! ### Graph node property values -/

/-- Properties a Taxpayer node carries once step 1 has `SET` them; a node
merged only as an edge endpoint has no properties (`none`). -/
structure TPProps where
  name : String
  risk_category : String
  ip_address : String
  phone : String
deriving DecidableEq

/-- The four core Invoice properties written by `_sync_invoices`. -/
structure InvCore where
  value : ℚ
  invoice_date : String
  seller_gstin : String
  buyer_gstin : String
deriving DecidableEq

/-- Invoice enrichment written by `_sync_gstr1` (query 3a). -/
structure InvG1 where
  gstr1_status : String
  gstr1_filing_date : String
  gstr1_tax : ℚ
deriving DecidableEq

/-- Invoice enrichment written by `_sync_gstr2b`. -/
structure InvG2B where
  gstr2b_itc_eligible : String
  gstr2b_buyer_gstin : String
  gstr2b_tax : ℚ
deriving DecidableEq

/-- An Invoice node's property groups; a group is `none` until the step that
writes it has run. -/
structure InvProps where
  core : Option InvCore := none
  g1 : Option InvG1 := none
  g2b : Option InvG2B := none
deriving DecidableEq

/-- A Return node's properties (`none` = property absent / Cypher `null`). -/
structure RetProps where
  rtype : Option String := none
  gstin : Option String := none
  period : Option String := none
  status : Option String := none
  filing_date : Option String := none
  tax_paid : Option ℚ := none
  payment_confirmed : Option String := none
deriving DecidableEq

structure EWBProps where
  value : ℚ
  distance : ℚ
  date : String
  seller_gstin : String
  buyer_gstin : String
deriving DecidableEq

/-- `CLAIMED_ITC` relationship properties (from `_sync_purchase_register`;
the GSTR2B-sourced edge carries none). -/
structure CITProps where
  value_claimed : ℚ
  tax_claimed : ℚ
  claim_date : String
deriving DecidableEq

/-! ### The graph state and the per-step upsert operations -/

/-- The projected graph: node collections keyed by their natural key
(association lists preserving creation order), and edge lists per
relationship type.  `claimedITC` is keyed by (buyer gstin, invoice id) with
optional relationship properties. -/
@[ext]
structure GState where
  taxpayers : List (String × Option TPProps)
  invoices : List (String × InvProps)
  returns : List (String × RetProps)
  ewaybills : List (String × Option EWBProps)
  issued : List (String × String)
  billedTo : List (String × String)
  filed : List (String × String)
  reportedIn : List (String × String)
  hasEwaybill : List (String × String)
  claimedITC : List ((String × String) × Option CITProps)
  summarizedIn : List (String × String)
deriving DecidableEq

/-- `MERGE (t:Taxpayer {gstin})` with no `SET`: create-if-absent. -/
def mergeTaxOp (g : String) : Op String (Option TPProps) :=
  ⟨g, 0, fun ov => ov.getD none⟩

/-- Step 1 `MERGE … SET` on a Taxpayer node: overwrites all four mirrored
properties. -/
def setTaxOp (r : TaxRec) : Op String (Option TPProps) :=
  ⟨r.gstin, 1, fun _ => some ⟨r.name, r.risk_category, r.ip_address, r.phone⟩⟩

/-- `MERGE (i:Invoice {invoice_id})` with no `SET`. -/
def mergeInvOp (i : String) : Op String InvProps :=
  ⟨i, 0, fun ov => ov.getD {}⟩

/-- Step 2 `SET` of the four core Invoice properties. -/
def setInvCoreOp (r : InvRec) : Op String InvProps :=
  ⟨r.invoice_id, 1, fun ov =>
    { ov.getD {} with core := some ⟨r.value, r.invoice_date, r.seller_gstin, r.buyer_gstin⟩ }⟩

/-- Step 3 (query 3a) `SET` of the GSTR1 enrichment properties. -/
def setInvG1Op (r : GSTR1Rec) : Op String InvProps :=
  ⟨r.invoice_id, 2, fun ov =>
    { ov.getD {} with g1 := some ⟨r.status, r.filing_date, r.tax⟩ }⟩

/-- Step 4 `SET` of the GSTR2B enrichment properties. -/
def setInvG2BOp (r : GSTR2BRec) : Op String InvProps :=
  ⟨r.invoice_id, 3, fun ov =>
    { ov.getD {} with g2b := some ⟨r.itc_eligible, r.buyer_gstin, r.tax⟩ }⟩

/-- Step 3 (query 3b) `MERGE … SET` on a `Return {GSTR1_…}` node. -/
def setRetG1Op (r : GSTR1Rec) : Op String RetProps :=
  ⟨r.return_id, 1, fun ov =>
    { ov.getD {} with rtype := some "GSTR1", gstin := some r.gstin, period := some r.period,
                      status := some r.status, filing_date := some r.filing_date }⟩

/-- Step 5 `MERGE … SET` on a `Return {GSTR3B_…}` node. -/
def setRetG3Op (r : GSTR3BRec) : Op String RetProps :=
  ⟨r.return_id, 2, fun ov =>
    { ov.getD {} with rtype := some "GSTR3B", gstin := some r.gstin, period := some r.month,
                      tax_paid := some r.tax_paid, payment_confirmed := some r.payment_confirmed }⟩

/-- Step 7 `MERGE … SET` on an EWayBill node. -/
def setEwbOp (r : EWBRec) : Op String (Option EWBProps) :=
  ⟨r.ewaybill_no, 1, fun _ =>
    some ⟨r.value, r.distance, r.date, r.seller_gstin, r.buyer_gstin⟩⟩

/-- Step 4 `MERGE (b)-[:CLAIMED_ITC]->(i)` with no `SET`: create-if-absent,
property-less when fresh. -/
def mergeCitOp (k : String × String) : Op (String × String) (Option CITProps) :=
  ⟨k, 0, fun ov => ov.getD none⟩

/-- Step 8 `MERGE (b)-[r:CLAIMED_ITC]->(i) SET r.… `: overwrites the claim
properties. -/
def setCitOp (r : PRRec) : Op (String × String) (Option CITProps) :=
  ⟨(r.buyer_gstin, r.invoice_id), 1, fun _ =>
    some ⟨r.value_claimed, r.tax_claimed, r.claim_date⟩⟩

/-- `_sync_taxpayers`: Taxpayer nodes, full property `SET` per record. -/
def syncTaxpayers (ds : List TaxpayerDoc) (s : GState) : GState :=
  { s with taxpayers := applyOps ((ds.filterMap extractTaxpayer).map setTaxOp) s.taxpayers }

/-- `_sync_invoices`: Invoice nodes with core properties, endpoint Taxpayer
merges, and ISSUED / BILLED_TO edges. -/
def syncInvoices (ds : List InvoiceDoc) (s : GState) : GState :=
  let rs := ds.filterMap extractInvoice
  { s with
    invoices := applyOps (rs.map setInvCoreOp) s.invoices
    taxpayers := applyOps
      (rs.flatMap fun r => [mergeTaxOp r.seller_gstin, mergeTaxOp r.buyer_gstin]) s.taxpayers
    issued := addAll (rs.map fun r => (r.seller_gstin, r.invoice_id)) s.issued
    billedTo := addAll (rs.map fun r => (r.invoice_id, r.buyer_gstin)) s.billedTo }

/-- `_sync_gstr1`: first the enrichment batch (query 3a) over all records,
then the Return-node batch (query 3b) with FILED and REPORTED_IN edges. -/
def syncGSTR1 (ds : List GSTR1Doc) (s : GState) : GState :=
  let rs := ds.filterMap extractGSTR1
  { s with
    invoices := applyOps
      (rs.map setInvG1Op ++ rs.map fun r => mergeInvOp r.invoice_id) s.invoices
    returns := applyOps (rs.map setRetG1Op) s.returns
    taxpayers := applyOps (rs.map fun r => mergeTaxOp r.gstin) s.taxpayers
    filed := addAll (rs.map fun r => (r.gstin, r.return_id)) s.filed
    reportedIn := addAll (rs.map fun r => (r.invoice_id, r.return_id)) s.reportedIn }

/-- `_sync_gstr2b`: ITC enrichment on Invoice nodes; when
`itc_eligible == "YES"`, merge the buyer Taxpayer and a property-less
CLAIMED_ITC edge. -/
def syncGSTR2B (ds : List GSTR2BDoc) (s : GState) : GState :=
  let rs := ds.filterMap extractGSTR2B
  { s with
    invoices := applyOps (rs.map setInvG2BOp) s.invoices
    taxpayers := applyOps
      (rs.filterMap fun r =>
        if r.itc_eligible = "YES" then some (mergeTaxOp r.buyer_gstin) else none) s.taxpayers
    claimedITC := applyOps
      (rs.filterMap fun r =>
        if r.itc_eligible = "YES" then some (mergeCitOp (r.buyer_gstin, r.invoice_id))
        else none) s.claimedITC }

/-- `_sync_gstr3b`: `Return {GSTR3B_…}` nodes plus FILED edges. -/
def syncGSTR3B (ds : List GSTR3BDoc) (s : GState) : GState :=
  let rs := ds.filterMap extractGSTR3B
  { s with
    returns := applyOps (rs.map setRetG3Op) s.returns
    taxpayers := applyOps (rs.map fun r => mergeTaxOp r.gstin) s.taxpayers
    filed := addAll (rs.map fun r => (r.gstin, r.return_id)) s.filed }

/-- Cypher null-propagating equality on two optional properties. -/
def optPropEq (a b : Option String) : Bool :=
  match a, b with
  | some x, some y => x = y
  | _, _ => false

/-- The SUMMARIZED_IN pairs of `_link_gstr1_to_gstr3b`: every
`(GSTR1, GSTR3B)` Return pair in the current graph with equal (non-null)
gstin and period. -/
def sumPairs (rets : List (String × RetProps)) : List (String × String) :=
  rets.flatMap fun p1 =>
    if p1.2.rtype = some "GSTR1" then
      rets.filterMap fun p3 =>
        if p3.2.rtype = some "GSTR3B" ∧ optPropEq p1.2.gstin p3.2.gstin
            ∧ optPropEq p1.2.period p3.2.period then
          some (p1.1, p3.1)
        else none
    else []

/-- `_link_gstr1_to_gstr3b`: `MERGE` a SUMMARIZED_IN edge per matching pair. -/
def linkReturns (s : GState) : GState :=
  { s with summarizedIn := addAll (sumPairs s.returns) s.summarizedIn }

/-- `_sync_ewaybills`: EWayBill nodes, Invoice merges, HAS_EWAYBILL edges. -/
def syncEwaybills (ds : List EWayBillDoc) (s : GState) : GState :=
  let rs := ds.filterMap extractEWayBill
  { s with
    ewaybills := applyOps (rs.map setEwbOp) s.ewaybills
    invoices := applyOps (rs.map fun r => mergeInvOp r.invoice_id) s.invoices
    hasEwaybill := addAll (rs.map fun r => (r.invoice_id, r.ewaybill_no)) s.hasEwaybill }

/-- `_sync_purchase_register`: Taxpayer/Invoice merges and CLAIMED_ITC edges
carrying the claim properties. -/
def syncPurchaseRegister (ds : List PurchaseRegisterDoc) (s : GState) : GState :=
  let rs := ds.filterMap extractPR
  { s with
    taxpayers := applyOps (rs.map fun r => mergeTaxOp r.buyer_gstin) s.taxpayers
    invoices := applyOps (rs.map fun r => mergeInvOp r.invoice_id) s.invoices
    claimedITC := applyOps (rs.map setCitOp) s.claimedITC }

/-- The seven source collections of one projection run. -/
structure Docs where
  taxpayers : List TaxpayerDoc
  invoices : List InvoiceDoc
  gstr1 : List GSTR1Doc
  gstr2b : List GSTR2BDoc
  gstr3b : List GSTR3BDoc
  ewaybills : List EWayBillDoc
  purchase_register : List PurchaseRegisterDoc

/-- `sync_graph`: the fixed step sequence of the full projection (constraint
setup does not touch graph data; the model covers the fault-free execution —
per-batch failures only affect the counters, see `batchWrite`). -/
def syncGraph (d : Docs) (s : GState) : GState :=
  syncPurchaseRegister d.purchase_register
    (syncEwaybills d.ewaybills
      (linkReturns
        (syncGSTR3B d.gstr3b
          (syncGSTR2B d.gstr2b
            (syncGSTR1 d.gstr1
              (syncInvoices d.invoices
                (syncTaxpayers d.taxpayers s)))))))

/-! ### Per-collection operation sequences of a full run -/

/-- All Taxpayer-node upserts of one `sync_graph` run, in execution order. -/
def taxOps (d : Docs) : List (Op String (Option TPProps)) :=
  (d.taxpayers.filterMap extractTaxpayer).map setTaxOp
  ++ ((d.invoices.filterMap extractInvoice).flatMap fun r =>
      [mergeTaxOp r.seller_gstin, mergeTaxOp r.buyer_gstin])
  ++ ((d.gstr1.filterMap extractGSTR1).map fun r => mergeTaxOp r.gstin)
  ++ ((d.gstr2b.filterMap extractGSTR2B).filterMap fun r =>
      if r.itc_eligible = "YES" then some (mergeTaxOp r.buyer_gstin) else none)
  ++ ((d.gstr3b.filterMap extractGSTR3B).map fun r => mergeTaxOp r.gstin)
  ++ ((d.purchase_register.filterMap extractPR).map fun r => mergeTaxOp r.buyer_gstin)

/-- All Invoice-node upserts of one `sync_graph` run, in execution order. -/
def invOps (d : Docs) : List (Op String InvProps) :=
  (d.invoices.filterMap extractInvoice).map setInvCoreOp
  ++ ((d.gstr1.filterMap extractGSTR1).map setInvG1Op
      ++ (d.gstr1.filterMap extractGSTR1).map fun r => mergeInvOp r.invoice_id)
  ++ (d.gstr2b.filterMap extractGSTR2B).map setInvG2BOp
  ++ ((d.ewaybills.filterMap extractEWayBill).map fun r => mergeInvOp r.invoice_id)
  ++ ((d.purchase_register.filterMap extractPR).map fun r => mergeInvOp r.invoice_id)

/-- All Return-node upserts of one `sync_graph` run, in execution order. -/
def retOps (d : Docs) : List (Op String RetProps) :=
  (d.gstr1.filterMap extractGSTR1).map setRetG1Op
  ++ (d.gstr3b.filterMap extractGSTR3B).map setRetG3Op

/-- All EWayBill-node upserts of one `sync_graph` run. -/
def ewbOps (d : Docs) : List (Op String (Option EWBProps)) :=
  (d.ewaybills.filterMap extractEWayBill).map setEwbOp

/-- All CLAIMED_ITC-edge upserts of one `sync_graph` run. -/
def citOps (d : Docs) : List (Op (String × String) (Option CITProps)) :=
  ((d.gstr2b.filterMap extractGSTR2B).filterMap fun r =>
    if r.itc_eligible = "YES" then some (mergeCitOp (r.buyer_gstin, r.invoice_id)) else none)
  ++ (d.purchase_register.filterMap extractPR).map setCitOp

/-- ISSUED edges of a run. -/
def issuedEdges (d : Docs) : List (String × String) :=
  (d.invoices.filterMap extractInvoice).map fun r => (r.seller_gstin, r.invoice_id)

/-- BILLED_TO edges of a run. -/
def billedToEdges (d : Docs) : List (String × String) :=
  (d.invoices.filterMap extractInvoice).map fun r => (r.invoice_id, r.buyer_gstin)

/-- FILED edges of a run (GSTR1 then GSTR3B step). -/
def filedEdges (d : Docs) : List (String × String) :=
  ((d.gstr1.filterMap extractGSTR1).map fun r => (r.gstin, r.return_id))
  ++ ((d.gstr3b.filterMap extractGSTR3B).map fun r => (r.gstin, r.return_id))

/-- REPORTED_IN edges of a run. -/
def reportedInEdges (d : Docs) : List (String × String) :=
  (d.gstr1.filterMap extractGSTR1).map fun r => (r.invoice_id, r.return_id)

/-- HAS_EWAYBILL edges of a run. -/
def hasEwaybillEdges (d : Docs) : List (String × String) :=
  (d.ewaybills.filterMap extractEWayBill).map fun r => (r.invoice_id, r.ewaybill_no)

theorem syncGraph_taxpayers (d : Docs) (s : GState) :
    (syncGraph d s).taxpayers = applyOps (taxOps d) s.taxpayers := by
  simp [syncGraph, syncTaxpayers, syncInvoices, syncGSTR1, syncGSTR2B, syncGSTR3B,
    linkReturns, syncEwaybills, syncPurchaseRegister, taxOps, applyOps_append]

theorem syncGraph_invoices (d : Docs) (s : GState) :
    (syncGraph d s).invoices = applyOps (invOps d) s.invoices := by
  simp [syncGraph, syncTaxpayers, syncInvoices, syncGSTR1, syncGSTR2B, syncGSTR3B,
    linkReturns, syncEwaybills, syncPurchaseRegister, invOps, applyOps_append]

theorem syncGraph_returns (d : Docs) (s : GState) :
    (syncGraph d s).returns = applyOps (retOps d) s.returns := by
  simp [syncGraph, syncTaxpayers, syncInvoices, syncGSTR1, syncGSTR2B, syncGSTR3B,
    linkReturns, syncEwaybills, syncPurchaseRegister, retOps, applyOps_append]

theorem syncGraph_ewaybills (d : Docs) (s : GState) :
    (syncGraph d s).ewaybills = applyOps (ewbOps d) s.ewaybills := by
  simp [syncGraph, syncTaxpayers, syncInvoices, syncGSTR1, syncGSTR2B, syncGSTR3B,
    linkReturns, syncEwaybills, syncPurchaseRegister, ewbOps, applyOps_append]

theorem syncGraph_claimedITC (d : Docs) (s : GState) :
    (syncGraph d s).claimedITC = applyOps (citOps d) s.claimedITC := by
  simp [syncGraph, syncTaxpayers, syncInvoices, syncGSTR1, syncGSTR2B, syncGSTR3B,
    linkReturns, syncEwaybills, syncPurchaseRegister, citOps, applyOps_append]

theorem syncGraph_issued (d : Docs) (s : GState) :
    (syncGraph d s).issued = addAll (issuedEdges d) s.issued := by
  simp [syncGraph, syncTaxpayers, syncInvoices, syncGSTR1, syncGSTR2B, syncGSTR3B,
    linkReturns, syncEwaybills, syncPurchaseRegister, issuedEdges]

theorem syncGraph_billedTo (d : Docs) (s : GState) :
    (syncGraph d s).billedTo = addAll (billedToEdges d) s.billedTo := by
  simp [syncGraph, syncTaxpayers, syncInvoices, syncGSTR1, syncGSTR2B, syncGSTR3B,
    linkReturns, syncEwaybills, syncPurchaseRegister, billedToEdges]

theorem syncGraph_filed (d : Docs) (s : GState) :
    (syncGraph d s).filed = addAll (filedEdges d) s.filed := by
  simp [syncGraph, syncTaxpayers, syncInvoices, syncGSTR1, syncGSTR2B, syncGSTR3B,
    linkReturns, syncEwaybills, syncPurchaseRegister, filedEdges, addAll_append]

theorem syncGraph_reportedIn (d : Docs) (s : GState) :
    (syncGraph d s).reportedIn = addAll (reportedInEdges d) s.reportedIn := by
  simp [syncGraph, syncTaxpayers, syncInvoices, syncGSTR1, syncGSTR2B, syncGSTR3B,
    linkReturns, syncEwaybills, syncPurchaseRegister, reportedInEdges]

theorem syncGraph_hasEwaybill (d : Docs) (s : GState) :
    (syncGraph d s).hasEwaybill = addAll (hasEwaybillEdges d) s.hasEwaybill := by
  simp [syncGraph, syncTaxpayers, syncInvoices, syncGSTR1, syncGSTR2B, syncGSTR3B,
    linkReturns, syncEwaybills, syncPurchaseRegister, hasEwaybillEdges]

theorem syncGraph_summarizedIn (d : Docs) (s : GState) :
    (syncGraph d s).summarizedIn
      = addAll (sumPairs (applyOps (retOps d) s.returns)) s.summarizedIn := by
  simp [syncGraph, syncTaxpayers, syncInvoices, syncGSTR1, syncGSTR2B, syncGSTR3B,
    linkReturns, syncEwaybills, syncPurchaseRegister, retOps, applyOps_append]

theorem taxOps_shape (d : Docs) :
    ∀ o ∈ taxOps d, (∃ g, o = mergeTaxOp g) ∨ (∃ r, o = setTaxOp r) := by
  intro o ho
  simp only [taxOps, List.mem_append, List.mem_map, List.mem_flatMap,
    List.mem_filterMap, List.mem_cons, List.not_mem_nil, or_false] at ho
  rcases ho with ((((⟨r, -, rfl⟩ | ⟨r, -, rfl | rfl⟩) | ⟨r, -, rfl⟩) | ⟨r, -, h⟩)
    | ⟨r, -, rfl⟩) | ⟨r, -, rfl⟩
  · exact Or.inr ⟨r, rfl⟩
  · exact Or.inl ⟨r.seller_gstin, rfl⟩
  · exact Or.inl ⟨r.buyer_gstin, rfl⟩
  · exact Or.inl ⟨r.gstin, rfl⟩
  · by_cases he : r.itc_eligible = "YES"
    · rw [if_pos he] at h; exact Or.inl ⟨r.buyer_gstin, (Option.some_inj.mp h).symm⟩
    · rw [if_neg he] at h; exact absurd h (by simp)
  · exact Or.inl ⟨r.gstin, rfl⟩
  · exact Or.inl ⟨r.buyer_gstin, rfl⟩

theorem taxOps_absorb (d : Docs) : OpsAbsorb (taxOps d) := by
  intro o₁ h₁ o₂ h₂ hkey hgrp ov
  rcases taxOps_shape d o₁ h₁ with ⟨g₁, rfl⟩ | ⟨r₁, rfl⟩ <;>
    rcases taxOps_shape d o₂ h₂ with ⟨g₂, rfl⟩ | ⟨r₂, rfl⟩
  · cases ov <;> rfl
  · simp [mergeTaxOp, setTaxOp] at hgrp
  · simp [mergeTaxOp, setTaxOp] at hgrp
  · rfl

theorem taxOps_comm (d : Docs) : OpsComm (taxOps d) := by
  intro o₁ h₁ o₂ h₂ hkey hgrp ov
  rcases taxOps_shape d o₁ h₁ with ⟨g₁, rfl⟩ | ⟨r₁, rfl⟩ <;>
    rcases taxOps_shape d o₂ h₂ with ⟨g₂, rfl⟩ | ⟨r₂, rfl⟩
  · exact absurd rfl hgrp
  · rfl
  · rfl
  · exact absurd rfl hgrp

theorem invOps_shape (d : Docs) :
    ∀ o ∈ invOps d, (∃ i, o = mergeInvOp i) ∨ (∃ r, o = setInvCoreOp r)
      ∨ (∃ r, o = setInvG1Op r) ∨ (∃ r, o = setInvG2BOp r) := by
  intro o ho
  simp only [invOps, List.mem_append, List.mem_map, List.mem_filterMap] at ho
  rcases ho with (((⟨r, -, rfl⟩ | (⟨r, -, rfl⟩ | ⟨r, -, rfl⟩)) | ⟨r, -, rfl⟩)
    | ⟨r, -, rfl⟩) | ⟨r, -, rfl⟩
  · exact Or.inr (Or.inl ⟨r, rfl⟩)
  · exact Or.inr (Or.inr (Or.inl ⟨r, rfl⟩))
  · exact Or.inl ⟨r.invoice_id, rfl⟩
  · exact Or.inr (Or.inr (Or.inr ⟨r, rfl⟩))
  · exact Or.inl ⟨r.invoice_id, rfl⟩
  · exact Or.inl ⟨r.invoice_id, rfl⟩

theorem invOps_absorb (d : Docs) : OpsAbsorb (invOps d) := by
  intro o₁ h₁ o₂ h₂ hkey hgrp ov
  rcases invOps_shape d o₁ h₁ with ⟨i₁, rfl⟩ | ⟨r₁, rfl⟩ | ⟨r₁, rfl⟩ | ⟨r₁, rfl⟩ <;>
    rcases invOps_shape d o₂ h₂ with ⟨i₂, rfl⟩ | ⟨r₂, rfl⟩ | ⟨r₂, rfl⟩ | ⟨r₂, rfl⟩ <;>
    first
      | (cases ov <;> rfl)
      | simp [mergeInvOp, setInvCoreOp, setInvG1Op, setInvG2BOp] at hgrp

theorem invOps_comm (d : Docs) : OpsComm (invOps d) := by
  intro o₁ h₁ o₂ h₂ hkey hgrp ov
  rcases invOps_shape d o₁ h₁ with ⟨i₁, rfl⟩ | ⟨r₁, rfl⟩ | ⟨r₁, rfl⟩ | ⟨r₁, rfl⟩ <;>
    rcases invOps_shape d o₂ h₂ with ⟨i₂, rfl⟩ | ⟨r₂, rfl⟩ | ⟨r₂, rfl⟩ | ⟨r₂, rfl⟩ <;>
    first
      | exact absurd rfl hgrp
      | (cases ov <;> rfl)

theorem extractGSTR1_return_id {d : GSTR1Doc} {r : GSTR1Rec}
    (h : extractGSTR1 d = some r) :
    r.return_id = "GSTR1_" ++ r.gstin ++ "_" ++ r.period := by
  cases hs : d.Seller_GSTIN with
  | none => simp [extractGSTR1, hs] at h
  | some g =>
    cases hi : d.Invoice_ID with
    | none => simp [extractGSTR1, hs, hi] at h
    | some i =>
      simp only [extractGSTR1, hs, hi, Option.some_bind, Option.some.injEq, bind,
        pure] at h
      rw [← h]

theorem extractGSTR3B_return_id {d : GSTR3BDoc} {r : GSTR3BRec}
    (h : extractGSTR3B d = some r) :
    r.return_id = "GSTR3B_" ++ r.gstin ++ "_" ++ r.month := by
  cases hs : d.Seller_GSTIN with
  | none => simp [extractGSTR3B, hs] at h
  | some g =>
    simp only [extractGSTR3B, hs, Option.some_bind, Option.some.injEq, bind,
      pure] at h
    rw [← h]

/-- A GSTR1 return id can never equal a GSTR3B return id: the fixed prefixes
differ at their fifth character. -/
theorem gstr1_id_ne_gstr3b_id (a b c d : String) :
    ("GSTR1_" ++ a ++ "_" ++ b) ≠ ("GSTR3B_" ++ c ++ "_" ++ d) := by
  intro h
  have hd : ("GSTR1_" ++ a ++ "_" ++ b).data = ("GSTR3B_" ++ c ++ "_" ++ d).data := by
    rw [h]
  simp only [String.data_append] at hd
  simp only [List.cons_append, List.nil_append] at hd
  injection hd with h1 hd
  injection hd with h2 hd
  injection hd with h3 hd
  injection hd with h4 hd
  injection hd with h5 hd
  exact absurd h5 (by decide)

theorem retOps_shape (d : Docs) :
    ∀ o ∈ retOps d,
      (∃ r, o = setRetG1Op r ∧ r.return_id = "GSTR1_" ++ r.gstin ++ "_" ++ r.period)
      ∨ (∃ r, o = setRetG3Op r ∧ r.return_id = "GSTR3B_" ++ r.gstin ++ "_" ++ r.month) := by
  intro o ho
  simp only [retOps, List.mem_append, List.mem_map, List.mem_filterMap] at ho
  rcases ho with ⟨r, ⟨doc, -, hdoc⟩, rfl⟩ | ⟨r, ⟨doc, -, hdoc⟩, rfl⟩
  · exact Or.inl ⟨r, rfl, extractGSTR1_return_id hdoc⟩
  · exact Or.inr ⟨r, rfl, extractGSTR3B_return_id hdoc⟩

theorem retOps_absorb (d : Docs) : OpsAbsorb (retOps d) := by
  intro o₁ h₁ o₂ h₂ hkey hgrp ov
  rcases retOps_shape d o₁ h₁ with ⟨r₁, rfl, hid₁⟩ | ⟨r₁, rfl, hid₁⟩ <;>
    rcases retOps_shape d o₂ h₂ with ⟨r₂, rfl, hid₂⟩ | ⟨r₂, rfl, hid₂⟩
  · rfl
  · simp [setRetG1Op, setRetG3Op] at hgrp
  · simp [setRetG1Op, setRetG3Op] at hgrp
  · rfl

theorem retOps_comm (d : Docs) : OpsComm (retOps d) := by
  intro o₁ h₁ o₂ h₂ hkey hgrp ov
  rcases retOps_shape d o₁ h₁ with ⟨r₁, rfl, hid₁⟩ | ⟨r₁, rfl, hid₁⟩ <;>
    rcases retOps_shape d o₂ h₂ with ⟨r₂, rfl, hid₂⟩ | ⟨r₂, rfl, hid₂⟩
  · exact absurd rfl hgrp
  · have : r₁.return_id = r₂.return_id := hkey
    rw [hid₁, hid₂] at this
    exact absurd this (gstr1_id_ne_gstr3b_id _ _ _ _)
  · have : r₁.return_id = r₂.return_id := hkey
    rw [hid₁, hid₂] at this
    exact absurd this.symm (gstr1_id_ne_gstr3b_id _ _ _ _)
  · exact absurd rfl hgrp

theorem ewbOps_absorb (d : Docs) : OpsAbsorb (ewbOps d) := by
  intro o₁ h₁ o₂ h₂ hkey hgrp ov
  simp only [ewbOps, List.mem_map] at h₁ h₂
  obtain ⟨r₁, -, rfl⟩ := h₁
  obtain ⟨r₂, -, rfl⟩ := h₂
  rfl

theorem ewbOps_comm (d : Docs) : OpsComm (ewbOps d) := by
  intro o₁ h₁ o₂ h₂ hkey hgrp ov
  simp only [ewbOps, List.mem_map] at h₁ h₂
  obtain ⟨r₁, -, rfl⟩ := h₁
  obtain ⟨r₂, -, rfl⟩ := h₂
  exact absurd rfl hgrp

theorem citOps_shape (d : Docs) :
    ∀ o ∈ citOps d, (∃ k, o = mergeCitOp k) ∨ (∃ r, o = setCitOp r) := by
  intro o ho
  simp only [citOps, List.mem_append, List.mem_map, List.mem_filterMap] at ho
  rcases ho with ⟨r, -, h⟩ | ⟨r, -, rfl⟩
  · by_cases he : r.itc_eligible = "YES"
    · rw [if_pos he] at h
      exact Or.inl ⟨(r.buyer_gstin, r.invoice_id), (Option.some_inj.mp h).symm⟩
    · rw [if_neg he] at h; exact absurd h (by simp)
  · exact Or.inr ⟨r, rfl⟩

theorem citOps_absorb (d : Docs) : OpsAbsorb (citOps d) := by
  intro o₁ h₁ o₂ h₂ hkey hgrp ov
  rcases citOps_shape d o₁ h₁ with ⟨k₁, rfl⟩ | ⟨r₁, rfl⟩ <;>
    rcases citOps_shape d o₂ h₂ with ⟨k₂, rfl⟩ | ⟨r₂, rfl⟩
  · cases ov <;> rfl
  · simp [mergeCitOp, setCitOp] at hgrp
  · simp [mergeCitOp, setCitOp] at hgrp
  · rfl

theorem citOps_comm (d : Docs) : OpsComm (citOps d) := by
  intro o₁ h₁ o₂ h₂ hkey hgrp ov
  rcases citOps_shape d o₁ h₁ with ⟨k₁, rfl⟩ | ⟨r₁, rfl⟩ <;>
    rcases citOps_shape d o₂ h₂ with ⟨k₂, rfl⟩ | ⟨r₂, rfl⟩
  · exact absurd rfl hgrp
  · rfl
  · rfl
  · exact absurd rfl hgrp

/-- C1.  Running the full projection twice in succession with unchanged
source documents produces zero net change on the second run: the resulting
graph state (hence every node/edge count and every node/edge property value)
after the second run equals the state after the first run — no duplicate
nodes, no duplicate edges keyed by the same endpoint pair. -/
theorem sync_graph_idempotent (d : Docs) (s : GState) :
    syncGraph d (syncGraph d s) = syncGraph d s := by
  have ht := applyOps_idem (taxOps_absorb d) (taxOps_comm d) s.taxpayers
  have hi := applyOps_idem (invOps_absorb d) (invOps_comm d) s.invoices
  have hr := applyOps_idem (retOps_absorb d) (retOps_comm d) s.returns
  have he := applyOps_idem (ewbOps_absorb d) (ewbOps_comm d) s.ewaybills
  have hc := applyOps_idem (citOps_absorb d) (citOps_comm d) s.claimedITC
  apply GState.ext
  · rw [syncGraph_taxpayers, syncGraph_taxpayers, ht]
  · rw [syncGraph_invoices, syncGraph_invoices, hi]
  · rw [syncGraph_returns, syncGraph_returns, hr]
  · rw [syncGraph_ewaybills, syncGraph_ewaybills, he]
  · rw [syncGraph_issued, syncGraph_issued, addAll_idem]
  · rw [syncGraph_billedTo, syncGraph_billedTo, addAll_idem]
  · rw [syncGraph_filed, syncGraph_filed, addAll_idem]
  · rw [syncGraph_reportedIn, syncGraph_reportedIn, addAll_idem]
  · rw [syncGraph_hasEwaybill, syncGraph_hasEwaybill, addAll_idem]
  · rw [syncGraph_claimedITC, syncGraph_claimedITC, hc]
  · rw [syncGraph_summarizedIn, syncGraph_summarizedIn, syncGraph_returns, hr,
      addAll_idem]

/-! ### `_batch_write` and the per-step reports (C4)

`_batch_write` slices the record list into batches of `BATCH_SIZE = 50`;
a failing batch adds its whole length to the error counter, a succeeding one
to the written counter.  Which batches fail is modelled by a predicate on the
batch index. -/

/-- Slice a list into chunks of `bs` elements (`range(0, len, bs)`). -/
def chunksOf (bs : ℕ) (l : List α) : List (List α) :=
  if l.isEmpty || bs == 0 then [] else l.take bs :: chunksOf bs (l.drop bs)
termination_by l.length
decreasing_by
  rename_i h
  simp only [Bool.or_eq_true, beq_iff_eq, List.isEmpty_iff] at h
  push_neg at h
  simp only [List.length_drop]
  have : 0 < l.length := List.length_pos.mpr h.1
  omega

theorem chunksOf_length_sum {bs : ℕ} (hbs : 0 < bs) (l : List α) :
    ((chunksOf bs l).map List.length).sum = l.length := by
  generalize hn : l.length = n
  induction n using Nat.strong_induction_on generalizing l with
  | _ n ih =>
    by_cases hl : l = []
    · subst hl; rw [chunksOf]; simp at hn ⊢; omega
    · rw [chunksOf, if_neg (by simp [hl]; omega)]
      simp only [List.map_cons, List.sum_cons]
      have hlt : (l.drop bs).length < n := by
        simp only [List.length_drop]
        have : 0 < l.length := List.length_pos.mpr hl
        omega
      rw [ih (l.drop bs).length hlt (l.drop bs) rfl]
      simp only [List.length_take, List.length_drop]
      omega

/-- `_batch_write`: returns `(written, errors)`; `fails i` tells whether the
`i`-th batch raises. -/
def batchWrite (fails : ℕ → Bool) (records : List α) : ℕ × ℕ :=
  let cs := (chunksOf 50 records).enum
  (cs.foldl (fun acc p => if fails p.1 then acc else acc + p.2.length) 0,
   cs.foldl (fun acc p => if fails p.1 then acc + p.2.length else acc) 0)

theorem batchWrite_total_aux (fails : ℕ → Bool) (cs : List (ℕ × List α))
    (a b : ℕ) :
    cs.foldl (fun acc p => if fails p.1 then acc else acc + p.2.length) a
      + cs.foldl (fun acc p => if fails p.1 then acc + p.2.length else acc) b
      = a + b + (cs.map fun p => p.2.length).sum := by
  induction cs generalizing a b with
  | nil => simp
  | cons p t ih =>
    simp only [List.foldl_cons, List.map_cons, List.sum_cons]
    by_cases hf : fails p.1
    · rw [if_pos hf, if_pos hf, ih]; ring
    · rw [if_neg hf, if_neg hf, ih]; ring

/-- written + errors = number of records handed to `_batch_write`. -/
theorem batchWrite_total (fails : ℕ → Bool) (records : List α) :
    (batchWrite fails records).1 + (batchWrite fails records).2 = records.length := by
  have h := batchWrite_total_aux fails ((chunksOf 50 records).enum) 0 0
  simp only [batchWrite]
  rw [h]
  have hmap : ((chunksOf 50 records).enum.map fun p => p.2.length)
      = ((chunksOf 50 records).enum.map Prod.snd).map List.length := by
    rw [List.map_map]; rfl
  rw [hmap, List.enum_map_snd, chunksOf_length_sum (by norm_num)]
  omega

/-- A single-query projection step's report: `read` documents, records
extracted (skipping those missing a required key), then batch-written. -/
structure StepReport where
  read : ℕ
  written : ℕ
  skipped : ℕ
  batch_errors : ℕ
deriving DecidableEq

/-- The per-step report produced by the single-query steps (`_sync_taxpayers`,
`_sync_invoices`, `_sync_gstr2b`, `_sync_gstr3b`, `_sync_ewaybills`,
`_sync_purchase_register`), parameterised by the step's record extraction. -/
def stepCounts (f : α → Option β) (ds : List α) (fails : ℕ → Bool) : StepReport :=
  let recs := ds.filterMap f
  let wr := batchWrite fails recs
  { read := ds.length, written := wr.1,
    skipped := ds.countP fun d => (f d).isNone, batch_errors := wr.2 }

/-- `_sync_taxpayers`' report. -/
def taxpayersReport (ds : List TaxpayerDoc) (fails : ℕ → Bool) : StepReport :=
  stepCounts extractTaxpayer ds fails

/-- `_sync_gstr1`'s report: one document pass builds both record lists, which
are batch-written by two separate queries (enrichment, then Return nodes). -/
structure GSTR1Report where
  read : ℕ
  enriched : ℕ
  returns_written : ℕ
  skipped : ℕ
  enrich_errors : ℕ
  return_errors : ℕ
deriving DecidableEq

/-- `_sync_gstr1`'s counters (`batch_errors` in the source report is
`enrich_errors + return_errors`). -/
def gstr1Report (ds : List GSTR1Doc) (fails₁ fails₂ : ℕ → Bool) : GSTR1Report :=
  let recs := ds.filterMap extractGSTR1
  let w₁ := batchWrite fails₁ recs
  let w₂ := batchWrite fails₂ recs
  { read := ds.length, enriched := w₁.1, returns_written := w₂.1,
    skipped := ds.countP fun d => (extractGSTR1 d).isNone,
    enrich_errors := w₁.2, return_errors := w₂.2 }

theorem length_filterMap_add_countP_none (f : α → Option β) (ds : List α) :
    (ds.filterMap f).length + ds.countP (fun d => (f d).isNone) = ds.length := by
  induction ds with
  | nil => rfl
  | cons a t ih =>
    cases hf : f a with
    | none =>
      rw [List.countP_cons_of_pos _ _ (by simp [hf])]
      simp only [List.filterMap_cons, hf, List.length_cons]
      omega
    | some b =>
      rw [List.countP_cons_of_neg _ _ (by simp [hf])]
      simp only [List.filterMap_cons, hf, List.length_cons]
      omega

/-- C4.  For every projection step and every input document list,
`records_read == records_written + records_skipped + batch_errors`: records
missing a required natural-key field are skipped (excluded from every batch,
so never written and never part of a batch error) yet counted, and a failed
batch counts all its records as batch errors.  For the two-query GSTR1 step
each sub-query's written count independently satisfies
`read == written + skipped + that sub-query's batch errors`. -/
theorem step_report_identity :
    (∀ (α β : Type) (f : α → Option β) (ds : List α) (fails : ℕ → Bool),
      (stepCounts f ds fails).read
        = (stepCounts f ds fails).written + (stepCounts f ds fails).skipped
          + (stepCounts f ds fails).batch_errors)
    ∧ (∀ (ds : List TaxpayerDoc) (fails : ℕ → Bool),
      (taxpayersReport ds fails).read
        = (taxpayersReport ds fails).written + (taxpayersReport ds fails).skipped
          + (taxpayersReport ds fails).batch_errors)
    ∧ (∀ (ds : List GSTR1Doc) (fails₁ fails₂ : ℕ → Bool),
      (gstr1Report ds fails₁ fails₂).read
        = (gstr1Report ds fails₁ fails₂).enriched
          + (gstr1Report ds fails₁ fails₂).skipped
          + (gstr1Report ds fails₁ fails₂).enrich_errors
      ∧ (gstr1Report ds fails₁ fails₂).read
        = (gstr1Report ds fails₁ fails₂).returns_written
          + (gstr1Report ds fails₁ fails₂).skipped
          + (gstr1Report ds fails₁ fails₂).return_errors) := by
  have key : ∀ (α β : Type) (f : α → Option β) (ds : List α) (fails : ℕ → Bool),
      ds.length = (batchWrite fails (ds.filterMap f)).1
        + ds.countP (fun d => (f d).isNone) + (batchWrite fails (ds.filterMap f)).2 := by
    intro α β f ds fails
    have h1 := batchWrite_total fails (ds.filterMap f)
    have h2 := length_filterMap_add_countP_none f ds
    omega
  refine ⟨fun α β f ds fails => key α β f ds fails,
    fun ds fails => key _ _ extractTaxpayer ds fails,
    fun ds fails₁ fails₂ => ⟨key _ _ extractGSTR1 ds fails₁, key _ _ extractGSTR1 ds fails₂⟩⟩

/-- C5.  Every GSTR1 record synthesizes
`return_id = "GSTR1_" ++ seller_gstin ++ "_" ++ period` where the period is
the 3-letter month abbreviation parsed from the `Filing_Date` in `%Y-%m-%d`
format (`"2026-01-19"` gives `"Jan"`; `"Unknown"` when the date is absent or
unparseable); every GSTR3B record synthesizes
`return_id = "GSTR3B_" ++ seller_gstin ++ "_" ++ Month` with the raw `Month`
field (default `"Unknown"`).  The period is the pure function `deriveMonth`
of the filing-date field. -/
theorem return_id_synthesis :
    (∀ (d : GSTR1Doc) (r : GSTR1Rec), extractGSTR1 d = some r →
      r.period = deriveMonth (d.Filing_Date.getD "")
        ∧ r.return_id = "GSTR1_" ++ r.gstin ++ "_" ++ deriveMonth (d.Filing_Date.getD ""))
    ∧ (∀ (d : GSTR3BDoc) (r : GSTR3BRec), extractGSTR3B d = some r →
      r.return_id = "GSTR3B_" ++ r.gstin ++ "_" ++ d.Month.getD "Unknown")
    ∧ deriveMonth "2026-01-19" = "Jan"
    ∧ deriveMonth "" = "Unknown" := by
  refine ⟨?_, ?_, by decide, by decide⟩
  · intro d r h
    cases hs : d.Seller_GSTIN with
    | none => simp [extractGSTR1, hs] at h
    | some g =>
      cases hi : d.Invoice_ID with
      | none => simp [extractGSTR1, hs, hi] at h
      | some i =>
        simp only [extractGSTR1, hs, hi, Option.some_bind, Option.some.injEq, bind,
          pure] at h
        rw [← h]
        exact ⟨rfl, rfl⟩
  · intro d r h
    cases hs : d.Seller_GSTIN with
    | none => simp [extractGSTR3B, hs] at h
    | some g =>
      simp only [extractGSTR3B, hs, Option.some_bind, Option.some.injEq, bind,
        pure] at h
      rw [← h]

/-- Witness for C5 at a concrete GSTR1 row (`Filing_Date = "2026-01-19"`)
and a concrete GSTR3B row (`Month = "Jan"`): the synthesized ids are
`GSTR1_G1_Jan` and `GSTR3B_G1_Jan`. -/
def demoGstr1Doc : GSTR1Doc :=
  { Seller_GSTIN := some "G1", Invoice_ID := some "INV-1", Status := some "FILED", Filing_Date := some "2026-01-19" }

def demoGstr3bDoc : GSTR3BDoc :=
  { Seller_GSTIN := some "G1", Month := some "Jan", Payment_Confirmed := some "Y" }

theorem return_id_synthesis_witness :
    (∃ r, extractGSTR1 demoGstr1Doc = some r ∧ r.return_id = "GSTR1_G1_Jan")
    ∧ (∃ r, extractGSTR3B demoGstr3bDoc = some r ∧ r.return_id = "GSTR3B_G1_Jan") := by
  constructor
  · refine ⟨_, rfl, ?_⟩
    have h := (return_id_synthesis.1 demoGstr1Doc _ rfl).2
    rw [h]
    decide
  · refine ⟨_, rfl, ?_⟩
    have h := return_id_synthesis.2.1 demoGstr3bDoc _ rfl
    rw [h]
    decide

/-! ## C. `routes/ca_dashboard.py` — buyer-side reconciliation

`ca_overview(gstin)` builds Purchase_Register and GSTR2B maps keyed by
`Invoice_ID` (restricted to the buyer), walks the sorted union of invoice
ids, and classifies each id.  The inputs below are the already-filtered
per-buyer document lists (`pr_raw`, `g2b_raw`) plus the `Invoices`
collection used for the seller fallback lookup. -/

/-- Python truthiness on an optional string field (`None` and `""` falsy). -/
def truthy (v : Option String) : Option String :=
  match v with
  | some s => if s = "" then none else some s
  | none => none

/-- `pr_map` / `g2b_map` building: key each document by its `Invoice_ID`
when truthy; a later document with the same id overwrites the earlier one. -/
def buildMap (key : α → Option String) (docs : List α) : List (String × α) :=
  docs.foldl
    (fun m d =>
      match truthy (key d) with
      | some i => upsert i (fun _ => d) m
      | none => m)
    []

/-- Association-list lookup (`dict.get`). -/
def mlookup (m : List (String × α)) (k : String) : Option α :=
  (m.find? fun p => p.1 = k).map Prod.snd

/-- `sorted(set(pr_map.keys()) | set(g2b_map.keys()))`. -/
def sortedUnion (pr : List (String × PurchaseRegisterDoc))
    (g2b : List (String × GSTR2BDoc)) : List String :=
  ((keysOf pr ++ keysOf g2b).dedup).mergeSort fun a b => decide (a ≤ b)

inductive RStatus where
  | MATCHED
  | MISMATCH
  | MISSING
deriving DecidableEq

/-- The reconciliation classification of `ca_overview` / `ca_invoice_detail`:
both present → `MATCHED` iff `|value_claimed − value| < 0.01`; only
Purchase_Register → `MISSING`; otherwise (GSTR2B only) → `MATCHED`. -/
def statusOf (pr : Option PurchaseRegisterDoc) (g2b : Option GSTR2BDoc) : RStatus :=
  match pr, g2b with
  | some p, some g =>
    if |safeFloat p.Value_Claimed - safeFloat g.Value| < 1 / 100 then .MATCHED
    else .MISMATCH
  | some _, none => .MISSING
  | _, _ => .MATCHED

/-- Seller resolution: the GSTR2B row's `Seller_GSTIN` when truthy, else (if
a Purchase_Register row exists) a `find_one` against the `Invoices`
collection, else `"N/A"`. -/
def sellerOf (g2b : Option GSTR2BDoc) (pr : Option PurchaseRegisterDoc)
    (invDb : List InvoiceDoc) (invId : String) : String :=
  match g2b.bind fun g => truthy g.Seller_GSTIN with
  | some s => s
  | none =>
    if pr.isSome then
      match invDb.find? fun i => i.Invoice_ID == some invId with
      | some inv => inv.Seller_GSTIN.getD "N/A"
      | none => "N/A"
    else "N/A"

structure ReconEntry where
  invoice_id : String
  seller : String
  purchase_value : Option ℚ
  gstr2b_value : Option ℚ
  status : RStatus
deriving DecidableEq

structure MissingEntry where
  invoice_id : String
  seller : String
  tax_claimed : Option ℚ
deriving DecidableEq

/-- One row of the `reconciliation` list for invoice id `i`. -/
def reconEntryFor (prm : List (String × PurchaseRegisterDoc))
    (g2bm : List (String × GSTR2BDoc)) (invDb : List InvoiceDoc) (i : String) :
    ReconEntry :=
  let pr := mlookup prm i
  let g2b := mlookup g2bm i
  { invoice_id := i
    seller := sellerOf g2b pr invDb i
    purchase_value := pr.map fun p => safeFloat p.Value_Claimed
    gstr2b_value := g2b.map fun g => safeFloat g.Value
    status := statusOf pr g2b }

/-- The `reconciliation` list of `ca_overview`. -/
def caReconciliation (pr_raw : List PurchaseRegisterDoc)
    (g2b_raw : List GSTR2BDoc) (invDb : List InvoiceDoc) : List ReconEntry :=
  let prm := buildMap PurchaseRegisterDoc.Invoice_ID pr_raw
  let g2bm := buildMap GSTR2BDoc.Invoice_ID g2b_raw
  (sortedUnion prm g2bm).map (reconEntryFor prm g2bm invDb)

/-- The `missing_itc` list of `ca_overview`: one entry per id classified
`MISSING`, carrying the resolved seller and the Purchase_Register
`Tax_Claimed`. -/
def caMissingItc (pr_raw : List PurchaseRegisterDoc)
    (g2b_raw : List GSTR2BDoc) (invDb : List InvoiceDoc) : List MissingEntry :=
  let prm := buildMap PurchaseRegisterDoc.Invoice_ID pr_raw
  let g2bm := buildMap GSTR2BDoc.Invoice_ID g2b_raw
  (sortedUnion prm g2bm).filterMap fun i =>
    let pr := mlookup prm i
    let g2b := mlookup g2bm i
    if statusOf pr g2b = .MISSING then
      some { invoice_id := i, seller := sellerOf g2b pr invDb i,
             tax_claimed := pr.bind fun p => p.Tax_Claimed }
    else none

/-- `find_one({"Buyer_GSTIN": gstin, "Invoice_ID": inv_id})`. -/
def prFind (prDb : List PurchaseRegisterDoc) (gstin invId : String) :
    Option PurchaseRegisterDoc :=
  prDb.find? fun p => p.Buyer_GSTIN == some gstin && p.Invoice_ID == some invId

def g2bFind (g2bDb : List GSTR2BDoc) (gstin invId : String) : Option GSTR2BDoc :=
  g2bDb.find? fun g => g.Buyer_GSTIN == some gstin && g.Invoice_ID == some invId

def invFind (invDb : List InvoiceDoc) (invId : String) : Option InvoiceDoc :=
  invDb.find? fun i => i.Invoice_ID == some invId

inductive DetailOutcome where
  | forbidden
  | notFound
  | ok (status : RStatus)
deriving DecidableEq

/-- The 403/404 decision of `ca_invoice_detail` once neither claim row was
found: 403 when the invoice exists and names the requester as neither buyer
nor seller, 404 otherwise. -/
def guardOutcome (gstin : String) (inv : Option InvoiceDoc) : DetailOutcome :=
  match inv with
  | some i =>
    if i.Buyer_GSTIN ≠ some gstin ∧ i.Seller_GSTIN ≠ some gstin then .forbidden
    else .notFound
  | none => .notFound

/-- `ca_invoice_detail(gstin, inv_id)` access control and reconciliation
status: 403 / 404 guard first, otherwise a result whose
`reconciliation_status` is `statusOf`. -/
def caInvoiceDetail (prDb : List PurchaseRegisterDoc) (g2bDb : List GSTR2BDoc)
    (invDb : List InvoiceDoc) (gstin invId : String) : DetailOutcome :=
  if prFind prDb gstin invId = none ∧ g2bFind g2bDb gstin invId = none then
    guardOutcome gstin (invFind invDb invId)
  else .ok (statusOf (prFind prDb gstin invId) (g2bFind g2bDb gstin invId))

/-- C2.  For an invoice id present in both the buyer's Purchase_Register map
and GSTR2B map, the reconciliation status (in `ca_overview`'s list and in
`ca_invoice_detail`) is `MATCHED` exactly when
`|value_claimed − value| < 0.01` and `MISMATCH` otherwise; a difference of
exactly `0.01` gives `MISMATCH` and a difference of `0.0099999` gives
`MATCHED` (strict `<` on the absolute difference). -/
theorem tolerance_boundary :
    (∀ (pr_raw : List PurchaseRegisterDoc) (g2b_raw : List GSTR2BDoc)
        (invDb : List InvoiceDoc) (e : ReconEntry)
        (p : PurchaseRegisterDoc) (g : GSTR2BDoc),
      e ∈ caReconciliation pr_raw g2b_raw invDb →
      mlookup (buildMap PurchaseRegisterDoc.Invoice_ID pr_raw) e.invoice_id = some p →
      mlookup (buildMap GSTR2BDoc.Invoice_ID g2b_raw) e.invoice_id = some g →
      ((e.status = .MATCHED ↔ |safeFloat p.Value_Claimed - safeFloat g.Value| < 1 / 100)
        ∧ (e.status = .MISMATCH ↔ ¬ |safeFloat p.Value_Claimed - safeFloat g.Value| < 1 / 100)))
    ∧ (∀ (prDb : List PurchaseRegisterDoc) (g2bDb : List GSTR2BDoc)
        (invDb : List InvoiceDoc) (gstin invId : String)
        (p : PurchaseRegisterDoc) (g : GSTR2BDoc),
      prFind prDb gstin invId = some p →
      g2bFind g2bDb gstin invId = some g →
      caInvoiceDetail prDb g2bDb invDb gstin invId
        = .ok (if |safeFloat p.Value_Claimed - safeFloat g.Value| < 1 / 100
            then .MATCHED else .MISMATCH))
    ∧ statusOf (some { Value_Claimed := some (1 / 100) }) (some { Value := some 0 })
        = .MISMATCH
    ∧ statusOf (some { Value_Claimed := some (99999 / 10000000) }) (some { Value := some 0 })
        = .MATCHED := by
  refine ⟨?_, ?_, ?_, ?_⟩
  · intro pr_raw g2b_raw invDb e p g he hp hg
    simp only [caReconciliation, List.mem_map] at he
    obtain ⟨i, -, rfl⟩ := he
    have hp' : mlookup (buildMap PurchaseRegisterDoc.Invoice_ID pr_raw) i = some p := hp
    have hg' : mlookup (buildMap GSTR2BDoc.Invoice_ID g2b_raw) i = some g := hg
    have hst : (reconEntryFor (buildMap PurchaseRegisterDoc.Invoice_ID pr_raw)
        (buildMap GSTR2BDoc.Invoice_ID g2b_raw) invDb i).status
        = statusOf (some p) (some g) := by
      show statusOf (mlookup (buildMap PurchaseRegisterDoc.Invoice_ID pr_raw) i)
        (mlookup (buildMap GSTR2BDoc.Invoice_ID g2b_raw) i) = _
      rw [hp', hg']
    rw [hst, statusOf]
    by_cases hlt : |safeFloat p.Value_Claimed - safeFloat g.Value| < 1 / 100
    · simp [hlt]
    · simp [hlt]
  · intro prDb g2bDb invDb gstin invId p g hp hg
    simp only [caInvoiceDetail, hp, hg]
    rw [if_neg (by simp), statusOf]
  · rw [statusOf, if_neg]
    simp only [safeFloat, Option.getD]
    rw [sub_zero, abs_of_nonneg (by norm_num)]
    norm_num
  · rw [statusOf, if_pos]
    simp only [safeFloat, Option.getD]
    rw [sub_zero, abs_of_nonneg (by norm_num)]
    norm_num

def demoPrDoc : PurchaseRegisterDoc :=
  { Buyer_GSTIN := some "G2", Invoice_ID := some "INV-1", Value_Claimed := some 1000 }

def demoG2bDoc : GSTR2BDoc :=
  { Buyer_GSTIN := some "G2", Invoice_ID := some "INV-1", Value := some 950,
    ITC_Eligible := some "YES", Tax := some 90 }

theorem demo_sortedUnion :
    sortedUnion (buildMap PurchaseRegisterDoc.Invoice_ID [demoPrDoc])
      (buildMap GSTR2BDoc.Invoice_ID [demoG2bDoc]) = ["INV-1"] := by
  simp [sortedUnion, buildMap, keysOf, upsert, truthy, demoPrDoc, demoG2bDoc]

/-- Witness for C2 at a concrete row pair (claimed 1000.00 vs reported
950.00): the entry for `INV-1` is `MATCHED` iff `|1000 − 950| < 0.01`
(so `MISMATCH`). -/
theorem tolerance_boundary_witness :
    ((reconEntryFor (buildMap PurchaseRegisterDoc.Invoice_ID [demoPrDoc])
        (buildMap GSTR2BDoc.Invoice_ID [demoG2bDoc]) [] "INV-1").status = .MATCHED
      ↔ |safeFloat demoPrDoc.Value_Claimed - safeFloat demoG2bDoc.Value| < 1 / 100) := by
  have hmem : reconEntryFor (buildMap PurchaseRegisterDoc.Invoice_ID [demoPrDoc])
      (buildMap GSTR2BDoc.Invoice_ID [demoG2bDoc]) [] "INV-1"
      ∈ caReconciliation [demoPrDoc] [demoG2bDoc] [] := by
    simp only [caReconciliation, demo_sortedUnion, List.map_cons, List.map_nil]
    exact List.mem_singleton.mpr rfl
  exact (tolerance_boundary.1 [demoPrDoc] [demoG2bDoc] [] _ demoPrDoc demoG2bDoc
    hmem rfl rfl).1


theorem mlookup_isSome_iff {α : Type} (m : List (String × α)) (k : String) :
    (mlookup m k).isSome ↔ k ∈ keysOf m := by
  induction m with
  | nil => simp [mlookup, keysOf]
  | cons p t ih =>
    by_cases h : p.1 = k
    · simp [mlookup, keysOf, List.find?_cons, h]
    · simp only [mlookup, keysOf, List.find?_cons, List.map_cons, List.mem_cons] at ih ⊢
      rw [show (decide (p.1 = k)) = false by simpa using h]
      rw [ih]
      constructor
      · exact Or.inr
      · rintro (hh | hh)
        · exact absurd hh.symm h
        · exact hh

theorem mem_sortedUnion_iff (prm : List (String × PurchaseRegisterDoc))
    (g2bm : List (String × GSTR2BDoc)) (i : String) :
    i ∈ sortedUnion prm g2bm
      ↔ (mlookup prm i).isSome ∨ (mlookup g2bm i).isSome := by
  rw [sortedUnion, List.mem_mergeSort, List.mem_dedup, List.mem_append,
    mlookup_isSome_iff, mlookup_isSome_iff]

theorem sortedUnion_nodup (prm : List (String × PurchaseRegisterDoc))
    (g2bm : List (String × GSTR2BDoc)) : (sortedUnion prm g2bm).Nodup :=
  (List.mergeSort_perm _ _).nodup_iff.mpr (List.nodup_dedup _)

/-- C3.  For every buyer, the reconciliation output assigns to each invoice
id in the union of the buyer's Purchase_Register and GSTR2B invoice ids
exactly one status (one entry per id, covering the whole union, no
duplicates); an id present only in Purchase_Register is `MISSING`, and an id
present only in GSTR2B is classified `MATCHED`. -/
theorem reconciliation_partition :
    ∀ (pr_raw : List PurchaseRegisterDoc) (g2b_raw : List GSTR2BDoc)
      (invDb : List InvoiceDoc),
      ((caReconciliation pr_raw g2b_raw invDb).map ReconEntry.invoice_id
        = sortedUnion (buildMap PurchaseRegisterDoc.Invoice_ID pr_raw)
            (buildMap GSTR2BDoc.Invoice_ID g2b_raw))
      ∧ (sortedUnion (buildMap PurchaseRegisterDoc.Invoice_ID pr_raw)
            (buildMap GSTR2BDoc.Invoice_ID g2b_raw)).Nodup
      ∧ (∀ i, i ∈ sortedUnion (buildMap PurchaseRegisterDoc.Invoice_ID pr_raw)
            (buildMap GSTR2BDoc.Invoice_ID g2b_raw)
          ↔ ((mlookup (buildMap PurchaseRegisterDoc.Invoice_ID pr_raw) i).isSome
            ∨ (mlookup (buildMap GSTR2BDoc.Invoice_ID g2b_raw) i).isSome))
      ∧ (∀ e ∈ caReconciliation pr_raw g2b_raw invDb,
          (e.status = .MISSING
            ↔ (mlookup (buildMap PurchaseRegisterDoc.Invoice_ID pr_raw) e.invoice_id).isSome
              ∧ mlookup (buildMap GSTR2BDoc.Invoice_ID g2b_raw) e.invoice_id = none))
      ∧ (∀ e ∈ caReconciliation pr_raw g2b_raw invDb,
          mlookup (buildMap PurchaseRegisterDoc.Invoice_ID pr_raw) e.invoice_id = none →
          e.status = .MATCHED) := by
  intro pr_raw g2b_raw invDb
  refine ⟨?_, sortedUnion_nodup _ _, mem_sortedUnion_iff _ _, ?_, ?_⟩
  · simp only [caReconciliation, List.map_map]
    have : ∀ ids : List String,
        ids.map (ReconEntry.invoice_id ∘ reconEntryFor
          (buildMap PurchaseRegisterDoc.Invoice_ID pr_raw)
          (buildMap GSTR2BDoc.Invoice_ID g2b_raw) invDb) = ids := by
      intro ids
      induction ids with
      | nil => rfl
      | cons a t ih => simp only [List.map_cons, ih, Function.comp_apply]; rfl
    exact this _
  · intro e he
    simp only [caReconciliation, List.mem_map] at he
    obtain ⟨i, -, rfl⟩ := he
    show statusOf (mlookup _ i) (mlookup _ i) = RStatus.MISSING
      ↔ (mlookup _ i).isSome ∧ mlookup _ i = none
    cases hp : mlookup (buildMap PurchaseRegisterDoc.Invoice_ID pr_raw) i with
    | none => cases hg : mlookup (buildMap GSTR2BDoc.Invoice_ID g2b_raw) i with
      | none => simp [statusOf]
      | some g => simp [statusOf]
    | some p => cases hg : mlookup (buildMap GSTR2BDoc.Invoice_ID g2b_raw) i with
      | none => simp [statusOf]
      | some g =>
        by_cases hlt : |safeFloat p.Value_Claimed - safeFloat g.Value| < 1 / 100
        · rw [statusOf, if_pos hlt]; simp
        · rw [statusOf, if_neg hlt]; simp
  · intro e he hp
    simp only [caReconciliation, List.mem_map] at he
    obtain ⟨i, -, rfl⟩ := he
    have hp' : mlookup (buildMap PurchaseRegisterDoc.Invoice_ID pr_raw) i = none := hp
    show statusOf (mlookup _ i) (mlookup _ i) = RStatus.MATCHED
    rw [hp']
    cases hg : mlookup (buildMap GSTR2BDoc.Invoice_ID g2b_raw) i <;> simp [statusOf]

theorem demo_sortedUnion_pr_only :
    sortedUnion (buildMap PurchaseRegisterDoc.Invoice_ID [demoPrDoc])
      (buildMap GSTR2BDoc.Invoice_ID []) = ["INV-1"] := by
  simp [sortedUnion, buildMap, keysOf, upsert, truthy, demoPrDoc]

/-- Witness for C3 at a concrete input with one Purchase_Register row and no
GSTR2B rows: the single entry (`INV-1`) is `MISSING`. -/
theorem reconciliation_partition_witness :
    (reconEntryFor (buildMap PurchaseRegisterDoc.Invoice_ID [demoPrDoc])
      (buildMap GSTR2BDoc.Invoice_ID []) [] "INV-1").status = .MISSING := by
  have hmem : reconEntryFor (buildMap PurchaseRegisterDoc.Invoice_ID [demoPrDoc])
      (buildMap GSTR2BDoc.Invoice_ID []) [] "INV-1"
      ∈ caReconciliation [demoPrDoc] [] [] := by
    simp only [caReconciliation, demo_sortedUnion_pr_only, List.map_cons, List.map_nil]
    exact List.mem_singleton.mpr rfl
  exact ((reconciliation_partition [demoPrDoc] [] []).2.2.2.1 _ hmem).mpr ⟨rfl, rfl⟩

/-- C10.  An invoice appears in `ca_overview`'s `missing_itc` list iff its
reconciliation status is `MISSING` (present in Purchase_Register, absent
from GSTR2B), and each entry carries that invoice's id, the seller resolved
via the GSTR2B row or the Invoices-collection fallback, and the
Purchase_Register `Tax_Claimed`. -/
theorem missing_itc_exact :
    ∀ (pr_raw : List PurchaseRegisterDoc) (g2b_raw : List GSTR2BDoc)
      (invDb : List InvoiceDoc),
      (∀ i, (∃ m ∈ caMissingItc pr_raw g2b_raw invDb, m.invoice_id = i)
        ↔ (∃ e ∈ caReconciliation pr_raw g2b_raw invDb,
            e.invoice_id = i ∧ e.status = .MISSING))
      ∧ (∀ m ∈ caMissingItc pr_raw g2b_raw invDb,
          m.seller = sellerOf
              (mlookup (buildMap GSTR2BDoc.Invoice_ID g2b_raw) m.invoice_id)
              (mlookup (buildMap PurchaseRegisterDoc.Invoice_ID pr_raw) m.invoice_id)
              invDb m.invoice_id
          ∧ m.tax_claimed
            = (mlookup (buildMap PurchaseRegisterDoc.Invoice_ID pr_raw) m.invoice_id).bind
                PurchaseRegisterDoc.Tax_Claimed
          ∧ statusOf (mlookup (buildMap PurchaseRegisterDoc.Invoice_ID pr_raw) m.invoice_id)
              (mlookup (buildMap GSTR2BDoc.Invoice_ID g2b_raw) m.invoice_id) = .MISSING) := by
  intro pr_raw g2b_raw invDb
  constructor
  · intro i
    constructor
    · rintro ⟨m, hm, rfl⟩
      simp only [caMissingItc, List.mem_filterMap] at hm
      obtain ⟨j, hj, hf⟩ := hm
      by_cases hst : statusOf
          (mlookup (buildMap PurchaseRegisterDoc.Invoice_ID pr_raw) j)
          (mlookup (buildMap GSTR2BDoc.Invoice_ID g2b_raw) j) = .MISSING
      · rw [if_pos hst] at hf
        refine ⟨reconEntryFor (buildMap PurchaseRegisterDoc.Invoice_ID pr_raw)
          (buildMap GSTR2BDoc.Invoice_ID g2b_raw) invDb j, ?_, ?_, hst⟩
        · simp only [caReconciliation, List.mem_map]
          exact ⟨j, hj, rfl⟩
        · rw [← Option.some_inj.mp hf]
          rfl
      · rw [if_neg hst] at hf
        exact absurd hf (by simp)
    · rintro ⟨e, he, rfl, hst⟩
      simp only [caReconciliation, List.mem_map] at he
      obtain ⟨j, hj, rfl⟩ := he
      have hst' : statusOf
          (mlookup (buildMap PurchaseRegisterDoc.Invoice_ID pr_raw) j)
          (mlookup (buildMap GSTR2BDoc.Invoice_ID g2b_raw) j) = .MISSING := hst
      refine ⟨⟨j, sellerOf (mlookup (buildMap GSTR2BDoc.Invoice_ID g2b_raw) j)
          (mlookup (buildMap PurchaseRegisterDoc.Invoice_ID pr_raw) j) invDb j,
        (mlookup (buildMap PurchaseRegisterDoc.Invoice_ID pr_raw) j).bind
          PurchaseRegisterDoc.Tax_Claimed⟩, ?_, rfl⟩
      simp only [caMissingItc, List.mem_filterMap]
      exact ⟨j, hj, by rw [if_pos hst']⟩
  · intro m hm
    simp only [caMissingItc, List.mem_filterMap] at hm
    obtain ⟨j, hj, hf⟩ := hm
    by_cases hst : statusOf
        (mlookup (buildMap PurchaseRegisterDoc.Invoice_ID pr_raw) j)
        (mlookup (buildMap GSTR2BDoc.Invoice_ID g2b_raw) j) = .MISSING
    · rw [if_pos hst] at hf
      rw [← Option.some_inj.mp hf]
      exact ⟨rfl, rfl, hst⟩
    · rw [if_neg hst] at hf
      exact absurd hf (by simp)

/-- Witness for C10: with one Purchase_Register row (`INV-1`) and no GSTR2B
rows, `missing_itc` contains an entry for `INV-1`. -/
theorem missing_itc_exact_witness :
    ∃ m ∈ caMissingItc [demoPrDoc] [] [], m.invoice_id = "INV-1" := by
  have hmem : reconEntryFor (buildMap PurchaseRegisterDoc.Invoice_ID [demoPrDoc])
      (buildMap GSTR2BDoc.Invoice_ID []) [] "INV-1"
      ∈ caReconciliation [demoPrDoc] [] [] := by
    simp only [caReconciliation, demo_sortedUnion_pr_only, List.map_cons, List.map_nil]
    exact List.mem_singleton.mpr rfl
  exact ((missing_itc_exact [demoPrDoc] [] []).1 "INV-1").mpr ⟨_, hmem, rfl, rfl⟩

def demoInvDoc : InvoiceDoc :=
  { Invoice_ID := some "INV-9", Value := some 60000, Seller_GSTIN := some "G9",
    Buyer_GSTIN := some "G1" }

/-- C9 counterexample.  With `Invoices = [INV-9 (buyer G1, seller G9)]` and
no Purchase_Register / GSTR2B rows, `ca_invoice_detail("G1", "INV-9")` raises
NotFound even though the invoice exists (and belongs to the requester as
buyer) — refuting "NotFound exactly when the invoice does not exist at all"
and "otherwise returns a result". -/
theorem invoice_detail_claim_counterexample :
    caInvoiceDetail [] [] [demoInvDoc] "G1" "INV-9" = .notFound
    ∧ invFind [demoInvDoc] "INV-9" = some demoInvDoc
    ∧ demoInvDoc.Buyer_GSTIN = some "G1" := by
  refine ⟨?_, rfl, rfl⟩
  rw [caInvoiceDetail]
  simp [prFind, g2bFind, invFind, guardOutcome, demoInvDoc]

/-- C9 (amended).  `ca_invoice_detail` fails with Forbidden exactly when no
Purchase_Register row and no GSTR2B row exist for (requester, invoice) and
the invoice exists in `Invoices` with the requester as neither buyer nor
seller; it fails with NotFound exactly when no such claim row exists and the
Forbidden condition does not hold (including when the invoice exists and
belongs to the requester but has no claim rows); it returns a result exactly
when a Purchase_Register or GSTR2B row exists. -/
theorem invoice_detail_guard :
    ∀ (prDb : List PurchaseRegisterDoc) (g2bDb : List GSTR2BDoc)
      (invDb : List InvoiceDoc) (gstin invId : String),
      (caInvoiceDetail prDb g2bDb invDb gstin invId = .forbidden
        ↔ (prFind prDb gstin invId = none ∧ g2bFind g2bDb gstin invId = none
          ∧ ∃ i, invFind invDb invId = some i
              ∧ i.Buyer_GSTIN ≠ some gstin ∧ i.Seller_GSTIN ≠ some gstin))
      ∧ (caInvoiceDetail prDb g2bDb invDb gstin invId = .notFound
        ↔ (prFind prDb gstin invId = none ∧ g2bFind g2bDb gstin invId = none
          ∧ ¬∃ i, invFind invDb invId = some i
              ∧ i.Buyer_GSTIN ≠ some gstin ∧ i.Seller_GSTIN ≠ some gstin))
      ∧ ((∃ st, caInvoiceDetail prDb g2bDb invDb gstin invId = .ok st)
        ↔ (prFind prDb gstin invId ≠ none ∨ g2bFind g2bDb gstin invId ≠ none)) := by
  intro prDb g2bDb invDb gstin invId
  by_cases hpg : prFind prDb gstin invId = none ∧ g2bFind g2bDb gstin invId = none
  · cases hi : invFind invDb invId with
    | none =>
      rw [caInvoiceDetail, if_pos hpg, hi, guardOutcome]
      refine ⟨?_, ?_, ?_⟩
      · simp [hi]
      · simp [hi, hpg.1, hpg.2]
      · simp [hpg.1, hpg.2]
    | some i =>
      by_cases hb : i.Buyer_GSTIN ≠ some gstin ∧ i.Seller_GSTIN ≠ some gstin
      · rw [caInvoiceDetail, if_pos hpg, hi, guardOutcome, if_pos hb]
        refine ⟨?_, ?_, ?_⟩
        · simp only [true_iff]
          exact ⟨hpg.1, hpg.2, i, rfl, hb⟩
        · constructor
          · intro h; simp at h
          · rintro ⟨-, -, hno⟩
            exact absurd ⟨i, rfl, hb⟩ hno
        · simp [hpg.1, hpg.2]
      · rw [caInvoiceDetail, if_pos hpg, hi, guardOutcome, if_neg hb]
        refine ⟨?_, ?_, ?_⟩
        · constructor
          · intro h; simp at h
          · rintro ⟨-, -, i', hi', hb'⟩
            rw [Option.some_inj.mp hi'] at hb
            exact absurd hb' hb
        · constructor
          · intro h
            refine ⟨hpg.1, hpg.2, ?_⟩
            rintro ⟨i', hi', hb'⟩
            rw [Option.some_inj.mp hi'] at hb
            exact hb hb'
          · intro h; rfl
        · simp [hpg.1, hpg.2]
  · rw [caInvoiceDetail, if_neg hpg]
    refine ⟨by simp; tauto, by simp; tauto, ?_⟩
    constructor
    · intro h; tauto
    · intro h; exact ⟨_, rfl⟩

/-! ## D. `routes/graph.py` — neighbourhood risk score -/

/-- `risk_score`'s base: own risk category → base points. -/
def riskBase (own_risk : String) : ℕ :=
  if own_risk = "HIGH" then 40
  else if own_risk = "MEDIUM" then 20
  else if own_risk = "LOW" then 5
  else 10

/-- `risk_score`: `min(base + min(high*15 + medium*5, 60), 100)`. -/
def riskScore (own_risk : String) (high_count medium_count : ℕ) : ℕ :=
  min (riskBase own_risk + min (high_count * 15 + medium_count * 5) 60) 100

/-- C6.  The neighbourhood risk score equals
`min(100, base + min(60, high*15 + medium*5))` with base 40 for HIGH, 20 for
MEDIUM, 5 for LOW and 10 otherwise; it always lies in [0, 100]; and
reclassifying one neighbour from LOW (`high+1`, same `medium`) or from
MEDIUM (`high+1`, `medium−1`) to HIGH never decreases it. -/
theorem risk_score_bounds_monotone :
    ∀ (own_risk : String) (h m : ℕ),
      riskScore own_risk h m
        = min 100 (riskBase own_risk + min 60 (h * 15 + m * 5))
      ∧ riskScore own_risk h m ≤ 100
      ∧ 0 ≤ riskScore own_risk h m
      ∧ riskScore own_risk h m ≤ riskScore own_risk (h + 1) m
      ∧ (1 ≤ m → riskScore own_risk h m ≤ riskScore own_risk (h + 1) (m - 1)) := by
  intro own_risk h m
  refine ⟨by rw [riskScore, Nat.min_comm _ 100, Nat.min_comm _ 60], ?_, Nat.zero_le _, ?_, ?_⟩
  · exact Nat.min_le_right _ _
  · unfold riskScore
    omega
  · intro hm
    unfold riskScore
    omega

/-- Witness for C6's monotonicity at `m = 1`: reclassifying the one MEDIUM
neighbour to HIGH does not decrease the score. -/
theorem risk_score_witness :
    riskScore "MEDIUM" 2 1 ≤ riskScore "MEDIUM" 3 0 :=
  (risk_score_bounds_monotone "MEDIUM" 2 1).2.2.2.2 (by decide)

/-! ## E. `routes/inspector_dashboard.py` — `ewaybill_fraud` -/

/-- The set of invoice ids having an EWayBill record (truthy ids only). -/
def ewbIdsOf (ewbs : List EWayBillDoc) : List String :=
  ewbs.filterMap fun r =>
    match truthy r.Invoice_ID with
    | some i => some i
    | none => none

structure Suspect where
  invoice_id : String
  seller_gstin : String
  buyer_gstin : String
  value : ℚ
deriving DecidableEq

/-- One loop iteration of `ewaybill_fraud`: keep the invoice iff
`value > 50000` and its id has no EWayBill record. -/
def mkSuspect (ewbIds : List String) (inv : InvoiceDoc) : Option Suspect :=
  if 50000 < safeFloat inv.Value ∧ inv.Invoice_ID.getD "" ∉ ewbIds then
    some { invoice_id := inv.Invoice_ID.getD "", seller_gstin := inv.Seller_GSTIN.getD "N/A",
           buyer_gstin := inv.Buyer_GSTIN.getD "N/A", value := safeFloat inv.Value }
  else none

/-- `ewaybill_fraud`: filter then sort by descending value (stable). -/
def ewaybillFraud (invoices : List InvoiceDoc) (ewbs : List EWayBillDoc) :
    List Suspect :=
  (invoices.filterMap (mkSuspect (ewbIdsOf ewbs))).mergeSort
    fun a b => decide (b.value ≤ a.value)

def demoInv49999 : InvoiceDoc :=
  { Invoice_ID := some "INV-8", Value := some (4999999 / 100),
    Seller_GSTIN := some "G9", Buyer_GSTIN := some "G1" }

def demoInv50000 : InvoiceDoc :=
  { Invoice_ID := some "INV-7", Value := some 50000,
    Seller_GSTIN := some "G9", Buyer_GSTIN := some "G1" }

/-- C7.  The e-way-bill fraud suspects are exactly the invoices with value
strictly above 50,000 whose id has no EWayBill record, sorted in descending
order of value; an invoice of value 60000 with no EWayBill appears (with
value 60000), one of value 49999.99 does not, and one of value exactly 50000
does not. -/
theorem ewaybill_fraud_spec :
    (∀ (invoices : List InvoiceDoc) (ewbs : List EWayBillDoc),
      (ewaybillFraud invoices ewbs).Perm
          (invoices.filterMap (mkSuspect (ewbIdsOf ewbs)))
      ∧ List.Pairwise (fun a b : Suspect => b.value ≤ a.value)
          (ewaybillFraud invoices ewbs)
      ∧ ∀ inv, (mkSuspect (ewbIdsOf ewbs) inv).isSome
          ↔ (50000 < safeFloat inv.Value ∧ inv.Invoice_ID.getD "" ∉ ewbIdsOf ewbs))
    ∧ ewaybillFraud [demoInvDoc] []
        = [{ invoice_id := "INV-9", seller_gstin := "G9", buyer_gstin := "G1",
             value := 60000 }]
    ∧ ewaybillFraud [demoInv49999] [] = []
    ∧ ewaybillFraud [demoInv50000] [] = [] := by
  refine ⟨?_, ?_, ?_, ?_⟩
  · intro invoices ewbs
    refine ⟨List.mergeSort_perm _ _, ?_, ?_⟩
    · have hs := @List.sorted_mergeSort Suspect
        (fun a b : Suspect => decide (b.value ≤ a.value))
        (fun a b c hab hbc => by
          simp only [decide_eq_true_eq] at hab hbc ⊢
          exact le_trans hbc hab)
        (fun a b => by
          simp only [Bool.or_eq_true, decide_eq_true_eq]
          exact le_total b.value a.value)
        (invoices.filterMap (mkSuspect (ewbIdsOf ewbs)))
      refine hs.imp ?_
      intro a b hab
      simpa using hab
    · intro inv
      rw [mkSuspect]
      by_cases hc : 50000 < safeFloat inv.Value ∧ inv.Invoice_ID.getD "" ∉ ewbIdsOf ewbs
      · rw [if_pos hc]; simpa using hc
      · rw [if_neg hc]; simpa using hc
  · rw [ewaybillFraud]
    have h1 : [demoInvDoc].filterMap (mkSuspect (ewbIdsOf []))
        = [{ invoice_id := "INV-9", seller_gstin := "G9", buyer_gstin := "G1",
             value := 60000 }] := by
      rw [List.filterMap_cons]
      rw [show mkSuspect (ewbIdsOf []) demoInvDoc
          = some { invoice_id := "INV-9", seller_gstin := "G9", buyer_gstin := "G1",
                   value := 60000 } from by
        rw [mkSuspect, if_pos]
        · rfl
        · refine ⟨by norm_num [demoInvDoc, safeFloat], by simp [ewbIdsOf]⟩]
      rfl
    rw [h1, List.mergeSort_singleton]
  · rw [ewaybillFraud]
    have h1 : [demoInv49999].filterMap (mkSuspect (ewbIdsOf [])) = [] := by
      rw [List.filterMap_cons]
      rw [show mkSuspect (ewbIdsOf []) demoInv49999 = none from by
        rw [mkSuspect, if_neg]
        intro hc
        have := hc.1
        rw [show safeFloat demoInv49999.Value = 4999999 / 100 from rfl] at this
        norm_num at this]
      rfl
    rw [h1, List.mergeSort_nil]
  · rw [ewaybillFraud]
    have h1 : [demoInv50000].filterMap (mkSuspect (ewbIdsOf [])) = [] := by
      rw [List.filterMap_cons]
      rw [show mkSuspect (ewbIdsOf []) demoInv50000 = none from by
        rw [mkSuspect, if_neg]
        intro hc
        have := hc.1
        rw [show safeFloat demoInv50000.Value = 50000 from rfl] at this
        norm_num at this]
      rfl
    rw [h1, List.mergeSort_nil]

/-! ## F. Vendor risk lists (`dashboard_overview`, `ca_overview`)

`dashboard_overview` walks `all_seller_gstins = list(set(...) | set(...))` —
a Python set, whose enumeration order is implementation-defined — computes a
risk level and reason list per seller, then stable-sorts by severity rank
(HIGH → MEDIUM → LOW).  The enumeration order is therefore an explicit
parameter `sellerOrder` below. -/

inductive Sev where
  | HIGH
  | MEDIUM
  | LOW
deriving DecidableEq

/-- The sort key `{"HIGH": 0, "MEDIUM": 1, "LOW": 2}`. -/
def sevRank : Sev → ℕ
  | .HIGH => 0
  | .MEDIUM => 1
  | .LOW => 2

/-- The reasons `dashboard_overview` / `ca_overview` can attach. -/
inductive VReason where
  | gstr1FiledUnpaid
  | itcBlocked
  | missingEwb (ids : List String)
  | noIssues
deriving DecidableEq

def reasonSev : VReason → Sev
  | .gstr1FiledUnpaid => .HIGH
  | .itcBlocked => .HIGH
  | .missingEwb _ => .MEDIUM
  | .noIssues => .LOW

/-- The maximum severity across a reason list (HIGH > MEDIUM > LOW). -/
def maxSev (rs : List VReason) : Sev :=
  rs.foldl (fun acc r => if sevRank (reasonSev r) < sevRank acc then reasonSev r else acc)
    .LOW

/-- The risk level as the source computes it from the three conditions. -/
def dashRisk (c1 c2 : Bool) (missing : List String) : Sev :=
  if c1 || c2 then .HIGH else if missing ≠ [] then .MEDIUM else .LOW

/-- The accumulated reason list as the source computes it. -/
def dashReasons (c1 c2 : Bool) (missing : List String) : List VReason :=
  let rs := (if c1 then [VReason.gstr1FiledUnpaid] else [])
    ++ (if c2 then [VReason.itcBlocked] else [])
    ++ (if missing ≠ [] then [VReason.missingEwb missing] else [])
  if rs = [] then [VReason.noIssues] else rs

structure VendorEntry where
  gstin : String
  name : String
  risk : Sev
  reasons : List VReason
deriving DecidableEq

/-- The per-buyer data `dashboard_overview` has gathered before the vendor
risk loop (invoices for the buyer, the buyer's GSTR2B rows, the sellers'
GSTR3B rows, the ids having a GSTR1 row, the ids having an EWayBill, and the
Taxpayer names). -/
structure DashData where
  invs : List InvoiceDoc
  g2b : List GSTR2BDoc
  g3b : List GSTR3BDoc
  gstr1Ids : List String
  ewbIds : List String
  names : List (String × String)

/-- One iteration of the `dashboard_overview` vendor-risk loop for seller
`sg`: condition 1 = GSTR1 filed for one of the seller's invoices but a
GSTR3B row has `Payment_Confirmed != "Y"`; condition 2 = some GSTR2B row of
the seller has `ITC_Eligible == "NO"`; condition 3 = some seller invoice has
no EWayBill (MEDIUM only if still LOW). -/
def dashEntry (dd : DashData) (sg : String) : VendorEntry :=
  let sellerInvIds := dd.invs.filterMap fun i =>
    match i.Invoice_ID with
    | some iid => if i.Seller_GSTIN == some sg then some iid else none
    | none => none
  let c1 := (sellerInvIds.any fun iid => decide (iid ∈ dd.gstr1Ids))
    && ((dd.g3b.filter fun r => r.Seller_GSTIN == some sg).any fun r =>
        !(r.Payment_Confirmed == some "Y"))
  let c2 := (dd.g2b.filter fun r => r.Seller_GSTIN == some sg).any fun r =>
    r.ITC_Eligible == some "NO"
  let missing := sellerInvIds.filter fun iid => decide (iid ∉ dd.ewbIds)
  { gstin := sg, name := (mlookup dd.names sg).getD "Unknown",
    risk := dashRisk c1 c2 missing, reasons := dashReasons c1 c2 missing }

/-- The `vendor_risk` list of `dashboard_overview`: per-seller entries in
set-enumeration order, stable-sorted by severity rank. -/
def dashboardVendorRisk (dd : DashData) (sellerOrder : List String) :
    List VendorEntry :=
  (sellerOrder.map (dashEntry dd)).mergeSort
    fun a b => decide (sevRank a.risk ≤ sevRank b.risk)

/-- One iteration of the `ca_overview` vendor-risk loop: "ITC blocked" (HIGH)
when some GSTR2B row of the seller has `ITC_Eligible == "NO"`; "GSTR3B
payment not confirmed" (HIGH) when the first GSTR3B row found for the seller
lacks `Payment_Confirmed == "Y"`; only non-LOW sellers are kept. -/
def caVendorEntry (g2b_raw : List GSTR2BDoc) (g3bDb : List GSTR3BDoc)
    (sg : String) : Option VendorEntry :=
  let c1 := (g2b_raw.filter fun r => r.Seller_GSTIN == some sg).any fun r =>
    r.ITC_Eligible == some "NO"
  let c2 := match g3bDb.find? fun r => r.Seller_GSTIN == some sg with
    | some r => !(r.Payment_Confirmed == some "Y")
    | none => false
  if c1 || c2 then
    some { gstin := sg, name := "", risk := .HIGH,
           reasons := (if c1 then [VReason.itcBlocked] else [])
             ++ (if c2 then [VReason.gstr1FiledUnpaid] else []) }
  else none

/-- The `vendor_risk` list of `ca_overview`: sellers in ascending GSTIN
order (`seller_list = sorted(...)`), non-LOW entries only, stable-sorted
HIGH first. -/
def caVendorRisk (g2b_raw : List GSTR2BDoc) (g3bDb : List GSTR3BDoc)
    (sellerSet : List String) : List VendorEntry :=
  (((sellerSet.mergeSort fun a b => decide (a ≤ b)).filterMap
      (caVendorEntry g2b_raw g3bDb)).mergeSort
    fun a b => decide ((if a.risk = .HIGH then 0 else 1)
      ≤ (if b.risk = .HIGH then (0 : ℕ) else 1)))

theorem pairwise_of_mem_rel {α : Type} {R : α → α → Prop} :
    ∀ {l : List α}, (∀ a ∈ l, ∀ b ∈ l, R a b) → l.Pairwise R
  | [], _ => List.Pairwise.nil
  | a :: t, h => List.Pairwise.cons
      (fun b hb => h a (by simp) b (by simp [hb]))
      (pairwise_of_mem_rel fun x hx y hy => h x (by simp [hx]) y (by simp [hy]))

theorem dashRisk_eq_maxSev (c1 c2 : Bool) (missing : List String) :
    dashRisk c1 c2 missing = maxSev (dashReasons c1 c2 missing) := by
  cases c1 <;> cases c2 <;> by_cases hm : missing = [] <;>
    simp [dashRisk, dashReasons, maxSev, reasonSev, sevRank, hm]

theorem caVendorEntry_fields {g2b : List GSTR2BDoc} {g3b : List GSTR3BDoc}
    {sg : String} {e : VendorEntry} (h : caVendorEntry g2b g3b sg = some e) :
    e.risk = .HIGH ∧ e.gstin = sg := by
  rw [caVendorEntry] at h
  by_cases hc : ((g2b.filter fun r => r.Seller_GSTIN == some sg).any fun r =>
      r.ITC_Eligible == some "NO")
    || (match g3b.find? fun r => r.Seller_GSTIN == some sg with
        | some r => !(r.Payment_Confirmed == some "Y")
        | none => false)
  · rw [if_pos hc] at h
    rw [← Option.some_inj.mp h]
    exact ⟨rfl, rfl⟩
  · rw [if_neg hc] at h
    exact absurd h (by simp)

def ceG2bDocs : List GSTR2BDoc :=
  [{ Buyer_GSTIN := some "B1", Seller_GSTIN := some "G1", Invoice_ID := some "I1",
     ITC_Eligible := some "NO" },
   { Buyer_GSTIN := some "B1", Seller_GSTIN := some "G2", Invoice_ID := some "I2",
     ITC_Eligible := some "NO" }]

def ceDashData : DashData :=
  { invs := [], g2b := ceG2bDocs, g3b := [], gstr1Ids := [], ewbIds := [], names := [] }

unseal List.merge List.mergeSort in
/-- C8 counterexample.  Two sellers `G1`, `G2`, both HIGH (each has an
ITC-blocked GSTR2B row).  `["G2", "G1"]` is a legal enumeration of the
seller set (Python set order is implementation-defined); the stable
severity sort keeps that order, so equal-severity sellers do *not* appear in
ascending GSTIN order in `dashboard_overview`. -/
theorem vendor_risk_tie_counterexample :
    (dashboardVendorRisk ceDashData ["G2", "G1"]).map VendorEntry.gstin = ["G2", "G1"]
    ∧ (∀ e ∈ dashboardVendorRisk ceDashData ["G2", "G1"], e.risk = .HIGH)
    ∧ ¬ List.Pairwise (fun a b : VendorEntry => a.gstin ≤ b.gstin)
        (dashboardVendorRisk ceDashData ["G2", "G1"]) := by
  have hmap : (dashboardVendorRisk ceDashData ["G2", "G1"]).map VendorEntry.gstin
      = ["G2", "G1"] := by decide
  refine ⟨hmap, by decide, ?_⟩
  intro hpw
  have h2 : List.Pairwise (fun a b : String => a ≤ b)
      ((dashboardVendorRisk ceDashData ["G2", "G1"]).map VendorEntry.gstin) :=
    List.pairwise_map.mpr hpw
  rw [hmap] at h2
  have hle : ("G2" : String) ≤ "G1" :=
    (List.pairwise_cons.mp h2).1 "G1" (by simp)
  have hlt : ("G1" : String) < "G2" := by
    rw [String.lt_iff_toList_lt]
    decide
  exact absurd hlt (not_lt.mpr hle)

/-- C8 (amended).  The buyer-scoped vendor risk output is sorted by
descending severity (HIGH before MEDIUM before LOW) and each seller's
severity is the maximum over its accumulated reasons; but sellers of equal
severity appear in the seller-set enumeration order (the severity sort is
stable).  In `ca_overview` — where the seller list is pre-sorted — ties are
in ascending GSTIN order (and every emitted entry is HIGH); in
`dashboard_overview` the enumeration order of the Python set is
implementation-defined, so ascending GSTIN order is not guaranteed (see the
counterexample). -/
theorem vendor_risk_sorted :
    (∀ (dd : DashData) (sellerOrder : List String),
      List.Pairwise (fun a b : VendorEntry => sevRank a.risk ≤ sevRank b.risk)
        (dashboardVendorRisk dd sellerOrder))
    ∧ (∀ (dd : DashData) (sellerOrder : List String),
      ∀ e ∈ dashboardVendorRisk dd sellerOrder, e.risk = maxSev e.reasons)
    ∧ (∀ (g2b_raw : List GSTR2BDoc) (g3bDb : List GSTR3BDoc)
        (sellerSet : List String),
      List.Pairwise (fun a b : VendorEntry => a.gstin ≤ b.gstin)
        (caVendorRisk g2b_raw g3bDb sellerSet)
      ∧ ∀ e ∈ caVendorRisk g2b_raw g3bDb sellerSet, e.risk = .HIGH) := by
  refine ⟨?_, ?_, ?_⟩
  · intro dd sellerOrder
    have hs := @List.sorted_mergeSort VendorEntry
      (fun a b : VendorEntry => decide (sevRank a.risk ≤ sevRank b.risk))
      (fun a b c hab hbc => by
        simp only [decide_eq_true_eq] at hab hbc ⊢
        exact le_trans hab hbc)
      (fun a b => by
        simp only [Bool.or_eq_true, decide_eq_true_eq]
        exact Nat.le_total _ _)
      (sellerOrder.map (dashEntry dd))
    exact hs.imp fun h => by simpa using h
  · intro dd sellerOrder e he
    rw [dashboardVendorRisk, List.mem_mergeSort, List.mem_map] at he
    obtain ⟨sg, -, rfl⟩ := he
    exact dashRisk_eq_maxSev _ _ _
  · intro g2b_raw g3bDb sellerSet
    have hall : ∀ e ∈ (sellerSet.mergeSort fun a b => decide (a ≤ b)).filterMap
        (caVendorEntry g2b_raw g3bDb), e.risk = .HIGH := by
      intro e he
      rw [List.mem_filterMap] at he
      obtain ⟨sg, -, hf⟩ := he
      exact (caVendorEntry_fields hf).1
    have hpw : List.Pairwise (fun a b : VendorEntry =>
        (decide ((if a.risk = .HIGH then 0 else 1)
          ≤ (if b.risk = .HIGH then (0 : ℕ) else 1))) = true)
        ((sellerSet.mergeSort fun a b => decide (a ≤ b)).filterMap
          (caVendorEntry g2b_raw g3bDb)) := by
      refine pairwise_of_mem_rel fun a ha b hb => by
        simp [hall a ha, hall b hb]
    have hid : caVendorRisk g2b_raw g3bDb sellerSet
        = (sellerSet.mergeSort fun a b => decide (a ≤ b)).filterMap
          (caVendorEntry g2b_raw g3bDb) := by
      rw [caVendorRisk]
      exact List.mergeSort_of_sorted hpw
    constructor
    · rw [hid]
      have hsorted : List.Pairwise (fun a b : String => a ≤ b)
          (sellerSet.mergeSort fun a b => decide (a ≤ b)) := by
        have hs := @List.sorted_mergeSort String
          (fun a b : String => decide (a ≤ b))
          (fun a b c hab hbc => by
            simp only [decide_eq_true_eq] at hab hbc ⊢
            exact le_trans hab hbc)
          (fun a b => by
            simp only [Bool.or_eq_true, decide_eq_true_eq]
            exact le_total a b)
          sellerSet
        exact hs.imp fun h => by simpa using h
      refine List.Pairwise.filterMap (caVendorEntry g2b_raw g3bDb) ?_ hsorted
      intro a a' hle b hb b' hb'
      rw [(caVendorEntry_fields hb).2, (caVendorEntry_fields hb').2]
      exact hle
    · rw [hid]
      exact hall

unseal List.merge List.mergeSort in
/-- Witness for the amended C8 at the concrete two-seller input: the entry
for `G1` carries the maximum severity of its reasons. -/
theorem vendor_risk_sorted_witness :
    (dashEntry ceDashData "G1").risk = maxSev (dashEntry ceDashData "G1").reasons := by
  have hmem : dashEntry ceDashData "G1"
      ∈ dashboardVendorRisk ceDashData ["G2", "G1"] := by decide
  exact vendor_risk_sorted.2.1 ceDashData ["G2", "G1"] _ hmem
